import Mathlib

/-!
# Verification of the Alpaca code-generator schema pipeline

Shallow embedding of the schema normalization pipeline of
`src/generator/index.ts` (together with the canonical-name resolver
module), stated over a typed model of the OpenAPI schema objects the
generator manipulates.

Modelling conventions:
* JS schema objects become a fixed-field inductive (`Schema`); JS
  object-key insertion order is abstracted to a fixed field order, so
  the `JSON.stringify`-based dedup keys (which omit every `description`
  field via the stringify replacer) are modelled as equality of
  description-stripped schema values, and `assert.deepEqual` on schema
  objects is equality of the corresponding typed values.
* Fallible code (assertion failures and TypeError crashes on property
  access of `undefined`) becomes `Except String`.
* In-place mutation becomes explicit value passing: each pass returns
  the updated schema/table.
* `properties` lists and optional sub-schemas use the dedicated mutual
  types `Props`/`OProps`/`OSchema` (isomorphic to
  `Option (List (String × Schema))` and `Option Schema`) so that all
  recursion is structural and every definition evaluates by kernel
  reduction.
-/

namespace AlpacaGen

/-- A JS primitive value as it occurs in `default` fields of the schemas
the generator sees (strings, numbers, booleans). -/
inductive Val where
  | s (v : String)
  | i (n : Int)
  | b (v : Bool)
  deriving DecidableEq, Repr

mutual

/-- An OpenAPI schema node as manipulated by `src/generator/index.ts`:
either a `$ref` object or an inline schema object with the fields the
generator reads or writes (`type`, `format`, `description`, `default`,
`minimum`, `maximum`, `properties`, `required`, `items`, `x-kind`).
`none` models an absent JS object key. -/
inductive Schema where
  | ref (target : String)
  | node (ty : Option String) (format : Option String)
         (descr : Option String) (dflt : Option Val)
         (minimum : Option Int) (maximum : Option Int)
         (props : OProps) (required : Option (List String))
         (items : OSchema) (xKind : Option String)
  deriving Repr

/-- An optional `properties` object (absent or present). -/
inductive OProps where
  | none
  | some (l : Props)
  deriving Repr

/-- A `properties` object: an ordered association list from property
name to schema, mirroring JS object key insertion order. -/
inductive Props where
  | nil
  | cons (name : String) (v : Schema) (rest : Props)
  deriving Repr

/-- An optional `items` sub-schema. -/
inductive OSchema where
  | none
  | some (s : Schema)
  deriving Repr

end

mutual

/-- Boolean structural equality on schemas. -/
def beqSchema : Schema → Schema → Bool
  | .ref a, .ref b => a == b
  | .node t1 f1 d1 df1 mn1 mx1 ps1 rq1 it1 xk1,
    .node t2 f2 d2 df2 mn2 mx2 ps2 rq2 it2 xk2 =>
    t1 == t2 && f1 == f2 && d1 == d2 && df1 == df2 && mn1 == mn2 &&
    mx1 == mx2 && beqOProps ps1 ps2 && rq1 == rq2 && beqOSchema it1 it2 &&
    xk1 == xk2
  | _, _ => false
termination_by structural a _ => a

/-- Boolean structural equality on optional `properties`. -/
def beqOProps : OProps → OProps → Bool
  | .none, .none => true
  | .some a, .some b => beqProps a b
  | _, _ => false
termination_by structural a _ => a

/-- Boolean structural equality on `properties` lists. -/
def beqProps : Props → Props → Bool
  | .nil, .nil => true
  | .cons k1 v1 r1, .cons k2 v2 r2 => k1 == k2 && beqSchema v1 v2 && beqProps r1 r2
  | _, _ => false
termination_by structural a _ => a

/-- Boolean structural equality on optional sub-schemas. -/
def beqOSchema : OSchema → OSchema → Bool
  | .none, .none => true
  | .some a, .some b => beqSchema a b
  | _, _ => false
termination_by structural a _ => a

end

mutual

theorem beqSchema_iff : ∀ a b, beqSchema a b = true ↔ a = b
  | .ref a, .ref b => by simp [beqSchema]
  | .ref _, .node _ _ _ _ _ _ _ _ _ _ => by simp [beqSchema]
  | .node _ _ _ _ _ _ _ _ _ _, .ref _ => by simp [beqSchema]
  | .node t1 f1 d1 df1 mn1 mx1 ps1 rq1 it1 xk1,
    .node t2 f2 d2 df2 mn2 mx2 ps2 rq2 it2 xk2 => by
    simp [beqSchema, beqOProps_iff ps1 ps2, beqOSchema_iff it1 it2, and_assoc]

theorem beqOProps_iff : ∀ a b, beqOProps a b = true ↔ a = b
  | .none, .none => by simp [beqOProps]
  | .none, .some _ => by simp [beqOProps]
  | .some _, .none => by simp [beqOProps]
  | .some a, .some b => by simp [beqOProps, beqProps_iff a b]

theorem beqProps_iff : ∀ a b, beqProps a b = true ↔ a = b
  | .nil, .nil => by simp [beqProps]
  | .nil, .cons _ _ _ => by simp [beqProps]
  | .cons _ _ _, .nil => by simp [beqProps]
  | .cons k1 v1 r1, .cons k2 v2 r2 => by
    simp [beqProps, beqSchema_iff v1 v2, beqProps_iff r1 r2, and_assoc]

theorem beqOSchema_iff : ∀ a b, beqOSchema a b = true ↔ a = b
  | .none, .none => by simp [beqOSchema]
  | .none, .some _ => by simp [beqOSchema]
  | .some _, .none => by simp [beqOSchema]
  | .some a, .some b => by simp [beqOSchema, beqSchema_iff a b]

end

instance : DecidableEq Schema := fun a b =>
  decidable_of_iff (beqSchema a b = true) (beqSchema_iff a b)

instance : DecidableEq Props := fun a b =>
  decidable_of_iff (beqProps a b = true) (beqProps_iff a b)

instance : DecidableEq OProps := fun a b =>
  decidable_of_iff (beqOProps a b = true) (beqOProps_iff a b)

instance : DecidableEq OSchema := fun a b =>
  decidable_of_iff (beqOSchema a b = true) (beqOSchema_iff a b)

/-- Builds a `properties` object from an ordered name/schema list. -/
def propsOfList : List (String × Schema) → Props
  | [] => .nil
  | (k, v) :: rest => .cons k v (propsOfList rest)

namespace Schema

/-- Reads `schema.type` (absent on `$ref` objects). -/
def tyOf : Schema → Option String
  | .ref _ => none
  | .node t _ _ _ _ _ _ _ _ _ => t

/-- Reads `schema.format`. -/
def formatOf : Schema → Option String
  | .ref _ => none
  | .node _ f _ _ _ _ _ _ _ _ => f

/-- Reads `schema.description`. -/
def descrOf : Schema → Option String
  | .ref _ => none
  | .node _ _ d _ _ _ _ _ _ _ => d

/-- Reads `schema.default`. -/
def dfltOf : Schema → Option Val
  | .ref _ => none
  | .node _ _ _ d _ _ _ _ _ _ => d

/-- Reads `schema.minimum`. -/
def minimumOf : Schema → Option Int
  | .ref _ => none
  | .node _ _ _ _ mn _ _ _ _ _ => mn

/-- Reads `schema.maximum`. -/
def maximumOf : Schema → Option Int
  | .ref _ => none
  | .node _ _ _ _ _ mx _ _ _ _ => mx

/-- Reads `schema.properties`. -/
def propsOf : Schema → OProps
  | .ref _ => .none
  | .node _ _ _ _ _ _ p _ _ _ => p

/-- Reads `schema.required`. -/
def requiredOf : Schema → Option (List String)
  | .ref _ => none
  | .node _ _ _ _ _ _ _ r _ _ => r

/-- Reads `schema['x-kind']`. -/
def xKindOf : Schema → Option String
  | .ref _ => none
  | .node _ _ _ _ _ _ _ _ _ k => k

/-- `delete schema.default` (a no-op on `$ref` objects, which carry no
`default` key). -/
def delDflt : Schema → Schema
  | .ref r => .ref r
  | .node t f d _ mn mx ps rq it xk => .node t f d none mn mx ps rq it xk

end Schema

namespace Props

/-- JS property lookup `obj[name]` on a `properties` object. -/
def lookup : Props → String → Option Schema
  | .nil, _ => none
  | .cons k v rest, name => if k = name then some v else lookup rest name

/-- Rest-destructuring `let {a, b, ...other} = props`: the remaining
properties, in their original order. -/
def removeNames : Props → List String → Props
  | .nil, _ => .nil
  | .cons k v rest, names =>
    if k ∈ names then removeNames rest names else .cons k v (removeNames rest names)

/-- The list of property names, in order. -/
def keys : Props → List String
  | .nil => []
  | .cons k _ rest => k :: keys rest

end Props

/-- Looks up a property schema of a schema (`schema.properties[name]`,
`none` when `properties` is absent or the schema is a `$ref`). -/
def Schema.propLookup (s : Schema) (name : String) : Option Schema :=
  match s.propsOf with
  | .some props => props.lookup name
  | .none => none

/-- Plain JS-object association lookup (`obj[key]`), first match wins;
JS objects cannot hold duplicate keys, so the lists we build are
duplicate-free. -/
def lookupStr {α : Type} (l : List (String × α)) (k : String) : Option α :=
  match l.find? (fun e => e.1 == k) with
  | some e => some e.2
  | none => none

/-- `obj[key] = value` on a JS object: overwrite in place if the key
exists, append otherwise. -/
def setEntry {α : Type} : List (String × α) → String → α → List (String × α)
  | [], k, v => [(k, v)]
  | (k', v') :: rest, k, v =>
    if k' = k then (k, v) :: rest else (k', v') :: setEntry rest k v

mutual

/-- `jsonWithoutOptFields`: the dedup-key serialization strips the
`description` key at every level (the `JSON.stringify` replacer).
Modelled as the schema with every `description` removed; two schemas
serialize to the same dedup key exactly when their stripped forms are
equal. -/
def stripDescr : Schema → Schema
  | .ref r => .ref r
  | .node t f _ df mn mx ps rq it xk =>
    .node t f none df mn mx (stripDescrOP ps) rq (stripDescrOS it) xk
termination_by structural s => s

/-- `stripDescr` on an optional `properties` object. -/
def stripDescrOP : OProps → OProps
  | .none => .none
  | .some l => .some (stripDescrProps l)
termination_by structural o => o

/-- `stripDescr` on the values of a `properties` list. -/
def stripDescrProps : Props → Props
  | .nil => .nil
  | .cons k v rest => .cons k (stripDescr v) (stripDescrProps rest)
termination_by structural l => l

/-- `stripDescr` on an optional sub-schema. -/
def stripDescrOS : OSchema → OSchema
  | .none => .none
  | .some s => .some (stripDescr s)
termination_by structural o => o

end

/-- `delete obj.default` guarded by `obj.default === v`. -/
def dropDflt (v : Val) (df : Option Val) : Option Val :=
  if df = some v then none else df

/-- The `integer` case's `minimum` elision: drop a `minimum` equal to
the known range's lower bound (the range table keyed by the format,
absent for unknown formats). -/
def intMinClean (g : String) (mn : Option Int) : Option Int :=
  if g = "int32" then (if mn = some (-2147483648) then none else mn)
  else if g = "uint32" then (if mn = some 0 then none else mn)
  else mn

/-- The `integer` case's `maximum` elision: drop a `maximum` equal to
the known range's upper bound. -/
def intMaxClean (g : String) (mx : Option Int) : Option Int :=
  if g = "int32" then (if mx = some 2147483647 then none else mx)
  else if g = "uint32" then (if mx = some 4294967295 then none else mx)
  else mx

mutual

/-- `cleanupSchema` (the Canonicalizer): recursively normalizes a schema
in place. Strings drop an empty-string default, booleans a `false`
default; integers default a missing `format` to `int32`, drop a
`minimum`/`maximum` equal to the exact `int32`/`uint32` range bound, and
fall through to the `number` rule dropping a zero default. Arrays and
objects recurse into non-`$ref` children. A missing `properties` (or
`items`) is a TypeError crash in the source, modelled as an error. -/
def cleanupSchema : Schema → Except String Schema
  | .ref r => .ok (.ref r)
  | .node t f d df mn mx ps rq it xk =>
    match t with
    | some "array" =>
      match it with
      | .none => .error "TypeError: cleanup of undefined items"
      | .some (.ref r) => .ok (.node t f d df mn mx ps rq (.some (.ref r)) xk)
      | .some item =>
        match cleanupSchema item with
        | .error e => .error e
        | .ok item' => .ok (.node t f d df mn mx ps rq (.some item') xk)
    | some "object" =>
      match ps with
      | .none => .error "TypeError: cleanup of undefined properties"
      | .some props =>
        match cleanupProps props with
        | .error e => .error e
        | .ok props' => .ok (.node t f d df mn mx (.some props') rq it xk)
    | some "string" =>
      .ok (.node t f d (dropDflt (.s "") df) mn mx ps rq it xk)
    | some "boolean" =>
      .ok (.node t f d (dropDflt (.b false) df) mn mx ps rq it xk)
    | some "integer" =>
      let f' := f.getD "int32"
      .ok (.node t (some f') d (dropDflt (.i 0) df)
        (intMinClean f' mn) (intMaxClean f' mx) ps rq it xk)
    | some "number" =>
      .ok (.node t f d (dropDflt (.i 0) df) mn mx ps rq it xk)
    | _ => .ok (.node t f d df mn mx ps rq it xk)
termination_by structural s => s

/-- `cleanupSchema` over the values of a `properties` list, skipping
`$ref` values exactly as the source's `isRef` guard does. -/
def cleanupProps : Props → Except String Props
  | .nil => .ok .nil
  | .cons k (.ref r) rest =>
    match cleanupProps rest with
    | .error e => .error e
    | .ok rest' => .ok (.cons k (.ref r) rest')
  | .cons k v rest =>
    match cleanupSchema v with
    | .error e => .error e
    | .ok v' =>
      match cleanupProps rest with
      | .error e => .error e
      | .ok rest' => .ok (.cons k v' rest')
termination_by structural l => l

end

/-! ## Semantic-kind tagging (`setXKind`) -/

/-- `setXKind`: tags a schema with its semantic kind. If a (truthy,
i.e. nonempty) kind is already present and differs, the source's
`assert.equal` aborts; otherwise the tag is (re)assigned. Every call
site passes a schema already validated to be an inline object, so the
`$ref` case is unreachable; the source would tag the raw `$ref` object
there, which the typed model cannot represent, so it is an error. -/
def setXKind (s : Schema) (kind : String) : Except String Schema :=
  match s with
  | .ref _ => .error "setXKind on a $ref"
  | .node t f d df mn mx ps rq it xk =>
    match xk with
    | some prev =>
      if prev = "" then .ok (.node t f d df mn mx ps rq it (some kind))
      else if prev = kind then .ok (.node t f d df mn mx ps rq it (some kind))
      else .error ("Conflicting x-kind: " ++ prev ++ " vs " ++ kind)
    | none => .ok (.node t f d df mn mx ps rq it (some kind))

/-! ## The invariant stripper (per-table-entry `x-kind` switch) -/

/-- Shorthand for a bare `{type: integer, format: f}` schema node. -/
def intSchema (f : String) : Schema :=
  .node (some "integer") (some f) none none none none .none none .none none

/-- Shorthand for a bare `{type: string}` schema node. -/
def strSchema : Schema :=
  .node (some "string") none none none none none .none none .none none

/-- The four mandatory response-envelope properties with their expected
declared shapes (the right-hand side of the `Response` case's
`assert.deepEqual`). -/
def envResponseShapes : List (String × Schema) :=
  [("ClientTransactionID", intSchema "uint32"),
   ("ServerTransactionID", intSchema "uint32"),
   ("ErrorNumber", intSchema "int32"),
   ("ErrorMessage", strSchema)]

/-- The names of the four response-envelope properties. -/
def envResponseNames : List String := envResponseShapes.map (·.1)

/-- The two mandatory request-envelope properties with their expected
declared shapes (the right-hand side of the `Request` case's
`assert.deepEqual`). -/
def envRequestShapes : List (String × Schema) :=
  [("ClientID", intSchema "uint32"), ("ClientTransactionID", intSchema "uint32")]

/-- The names of the two request-envelope properties. -/
def envRequestNames : List String := envRequestShapes.map (·.1)

/-- The `Response` case's `assert.deepEqual` condition: each envelope
property is present and its description-stripped shape equals the
expected one exactly. -/
def envRespOk (props : Props) : Bool :=
  envResponseShapes.all (fun e => (props.lookup e.1).map stripDescr == some e.2)

/-- The `Request` case's `assert.deepEqual` condition, after the two
`delete ....default` statements: each client-id property's
description-stripped, default-free shape equals integer/uint32
exactly. -/
def envReqOk (cid ctid : Schema) : Bool :=
  stripDescr cid.delDflt == intSchema "uint32" &&
  stripDescr ctid.delDflt == intSchema "uint32"

/-- The `case 'Response'` arm of the cleanup loop: destructures the four
envelope properties, compares them (descriptions stripped, via
`withoutOptFields`) against their exact expected shapes — a missing
property vanishes from the serialized comparison object and fails the
`deepEqual` — and on success replaces `properties` with the remaining
(payload) properties. A schema without `properties` crashes the
destructuring in the source. -/
def stripResponse (schemaName : String) (s : Schema) : Except String Schema :=
  match s with
  | .ref _ => .error "TypeError: destructuring properties of a $ref"
  | .node t f d df mn mx ps rq it xk =>
    match ps with
    | .none => .error "TypeError: destructuring undefined properties"
    | .some props =>
      if envRespOk props then
        .ok (.node t f d df mn mx (.some (props.removeNames envResponseNames)) rq it xk)
      else
        .error ("Missing response properties in " ++ schemaName)

/-- The `case 'Request'` arm of the cleanup loop: destructures the two
client-id properties, deletes their `default` values (the source
tolerates defaults that are missing in some definitions — but the
`delete` itself crashes with a TypeError when the property is absent),
compares the rest of their shape (descriptions stripped) against
integer/uint32 exactly, and on success replaces `properties` with the
remaining (payload) properties. -/
def stripRequest (schemaName : String) (s : Schema) : Except String Schema :=
  match s with
  | .ref _ => .error "TypeError: destructuring properties of a $ref"
  | .node t f d df mn mx ps rq it xk =>
    match ps with
    | .none => .error "TypeError: destructuring undefined properties"
    | .some props =>
      match props.lookup "ClientID", props.lookup "ClientTransactionID" with
      | some cid, some ctid =>
        if envReqOk cid ctid then
          .ok (.node t f d df mn mx (.some (props.removeNames envRequestNames)) rq it xk)
        else
          .error ("Missing request properties in " ++ schemaName)
      | _, _ => .error "TypeError: delete of a property of undefined"

/-! ## The table pass: canonicalize, strip invariants, deduplicate -/

/-- The extra reusable schemas of `src/generator/extra-schemas.ts`: an
empty object schema for each semantic kind. -/
def emptyKindSchema (kind : String) : Schema :=
  .node (some "object") none none none none none (.some .nil) none .none (some kind)

/-- `extraSchemas`: the fixed name → schema catalogue merged into the
type table after deduplication. -/
def extraSchemas : List (String × Schema) :=
  [("EmptyPath", emptyKindSchema "Path"),
   ("EmptyRequest", emptyKindSchema "Request"),
   ("EmptyResponse", emptyKindSchema "Response")]

/-- `extraSchemasWithoutOptFields` as a lookup: maps the dedup key (the
description-stripped schema) of an extra schema to its name. The extras
have pairwise distinct keys, so first-match lookup agrees with the
source's object-literal construction. -/
def extrasKeyLookup (key : Schema) : Option String :=
  match extraSchemas.find? (fun e => stripDescr e.2 = key) with
  | some e => some e.1
  | none => none

/-- One iteration of the cleanup loop over a table entry: canonicalize
(`cleanupSchema`), then apply the `x-kind` switch (invariant
stripping). -/
def processEntry (schemaName : String) (s : Schema) : Except String Schema :=
  match cleanupSchema s with
  | .error e => .error e
  | .ok s' =>
    match s'.xKindOf with
    | some "Response" => stripResponse schemaName s'
    | some "Request" => stripRequest schemaName s'
    | _ => .ok s'

/-- Accumulator of the dedup pass: the surviving table entries, the
recorded reference replacements, and the per-key occurrence counters. -/
structure PassAcc where
  table : List (String × Schema)
  refReplacements : List (String × String)
  groupCounts : List (Schema × Nat)
  deriving DecidableEq, Repr

/-- `groupCounts[key] ??= 0; groupCounts[key]++`. -/
def bumpCount : List (Schema × Nat) → Schema → List (Schema × Nat)
  | [], key => [(key, 1)]
  | (k, c) :: rest, key =>
    if k = key then (k, c + 1) :: rest else (k, c) :: bumpCount rest key

/-- The `$ref` path under which a table entry named `n` is addressed. -/
def schemaRefOf (n : String) : String := "#/components/schemas/" ++ n

/-- The body of the cleanup/dedup loop for one entry: process it, then
either delete it and record a reference replacement (when its dedup key
matches an extra schema's key) or keep it and count its key. -/
def dedupStep (acc : PassAcc) (entry : String × Schema) : Except String PassAcc :=
  match processEntry entry.1 entry.2 with
  | .error e => .error e
  | .ok s' =>
    match extrasKeyLookup (stripDescr s') with
    | some replacementName =>
      .ok { acc with
            refReplacements :=
              acc.refReplacements ++ [(schemaRefOf entry.1, schemaRefOf replacementName)] }
    | none =>
      .ok { acc with
            table := acc.table ++ [(entry.1, s')],
            groupCounts := bumpCount acc.groupCounts (stripDescr s') }

/-- The cleanup/dedup loop over the remaining table entries. -/
def dedupLoop (acc : PassAcc) : List (String × Schema) → Except String PassAcc
  | [] => .ok acc
  | e :: rest =>
    match dedupStep acc e with
    | .error err => .error err
    | .ok acc' => dedupLoop acc' rest

/-- `Object.assign(api.components.schemas, extraSchemas)`: merges the
extra schemas into the table (overwriting same-named entries in place,
appending new names). -/
def assignExtras (t : List (String × Schema)) : List (String × Schema) :=
  extraSchemas.foldl (fun acc e => setEntry acc e.1 e.2) t

/-- The whole second pass over the type table (`index.ts` lines
292–382): canonicalize and invariant-strip every entry, deduplicate
against the extra schemas, then merge the extra schemas into the
table. -/
def dedupPass (table : List (String × Schema)) : Except String PassAcc :=
  match dedupLoop ⟨[], [], []⟩ table with
  | .error e => .error e
  | .ok acc => .ok { acc with table := assignExtras acc.table }

/-! ### Concrete example schemas used in witnesses and counterexamples -/

/-- A well-formed `Request`-tagged table schema with one payload
property whose description is `d`: the two client-id envelope fields
plus an `int32` `Brightness`. -/
def exampleRequestSchema (d : String) : Schema :=
  .node (some "object") none none none none none
    (.some (propsOfList
      [("ClientID", intSchema "uint32"),
       ("ClientTransactionID", intSchema "uint32"),
       ("Brightness",
        .node (some "integer") (some "int32") (some d) none
          none none .none none .none none)]))
    none .none (some "Request")

/-- `exampleRequestSchema` after the table pass: only the payload
property remains. -/
def exampleRequestStripped (d : String) : Schema :=
  .node (some "object") none none none none none
    (.some (propsOfList
      [("Brightness",
        .node (some "integer") (some "int32") (some d) none
          none none .none none .none none)]))
    none .none (some "Request")

/-- The shared dedup key of the processed example request schemas (their
description-stripped form). -/
def exampleRequestKey : Schema :=
  .node (some "object") none none none none none
    (.some (propsOfList [("Brightness", intSchema "int32")]))
    none .none (some "Request")

/-! ## The per-operation classifier (`index.ts` lines 157–281) -/

/-- A resolved OpenAPI parameter object: its locus (`in`), name,
`required` flag, `description` and value schema. Absent keys are
`none`. -/
structure Param where
  locus : String
  name : String
  required : Option Bool
  descr : Option String
  schema : Option Schema
  deriving DecidableEq, Repr

/-- A value that may be given inline or as a `$ref` to be resolved. -/
inductive OrRef (α : Type) where
  | rref (target : String)
  | inline (v : α)
  deriving DecidableEq, Repr

/-- A media-type object (`content[contentType]`): its schema. -/
structure MediaObject where
  schema : Option Schema
  deriving DecidableEq, Repr

/-- The shape shared by request-body and response objects: an optional
`description` and an optional `content` map keyed by content type. -/
structure ContentOwner where
  descr : Option String
  content : Option (List (String × MediaObject))
  deriving DecidableEq, Repr

/-- An operation object: its tags, parameters (possibly `$ref`s), an
optional request body (possibly a `$ref`) and the response map keyed by
status code. -/
structure Operation where
  tags : Option (List String)
  parameters : Option (List (OrRef Param))
  requestBody : Option (OrRef ContentOwner)
  responses : List (String × OrRef ContentOwner)
  deriving DecidableEq, Repr

/-- The external reference resolver (`refs.get`), split by target type:
already-resolved definitions reachable by `$ref` id. -/
structure Env where
  schemaDefs : List (String × Schema)
  paramDefs : List (String × Param)
  bodyDefs : List (String × ContentOwner)
  respDefs : List (String × ContentOwner)
  deriving DecidableEq, Repr

/-- `resolveMaybeRef` on a schema: look through a `$ref`; an unresolvable
`$ref` yields `undefined` in the source and makes the caller's
`type === 'object'` check fail, modelled as an error. -/
def resolveSchemaRef (env : Env) : Schema → Except String Schema
  | .ref r =>
    match lookupStr env.schemaDefs r with
    | some s => .ok s
    | none => .error "Content is not an object"
  | s => .ok s

/-- `resolveMaybeRef` applied to each declared parameter; an
unresolvable `$ref` gives `undefined`, whose `.in` access crashes. -/
def resolveParams (env : Env) : List (OrRef Param) → Except String (List Param)
  | [] => .ok []
  | .inline p :: rest =>
    match resolveParams env rest with
    | .error e => .error e
    | .ok ps => .ok (p :: ps)
  | .rref r :: rest =>
    match lookupStr env.paramDefs r with
    | none => .error "TypeError: reading in of undefined parameter"
    | some p =>
      match resolveParams env rest with
      | .error e => .error e
      | .ok ps => .ok (p :: ps)

/-- `resolveMaybeRef(operation.requestBody)`: `undefined` stays
`undefined`, a dangling `$ref` resolves to `undefined` (and is then
treated as an absent body by the truthiness asserts). -/
def resolveBody (env : Env) : Option (OrRef ContentOwner) → Option ContentOwner
  | none => none
  | some (.inline b) => some b
  | some (.rref r) => lookupStr env.bodyDefs r

/-- `resolveMaybeRef(successfulResponse)`: a dangling `$ref` gives
`undefined`, whose destructuring in `getContent` crashes. -/
def resolveOwner (env : Env) : OrRef ContentOwner → Except String ContentOwner
  | .inline o => .ok o
  | .rref r =>
    match lookupStr env.respDefs r with
    | some o => .ok o
    | none => .error "TypeError: destructuring undefined response"

/-- `getContent(owner, contentType)`: requires the content map to have
exactly the one expected key, resolves that entry's schema and requires
it to be object-typed; returns the resolved schema and the entry. -/
def getContent (env : Env) (owner : ContentOwner) (contentType : String) :
    Except String (Schema × MediaObject) :=
  match owner.content.getD [] with
  | [(k, media)] =>
    if k = contentType then
      match media.schema with
      | none => .error "Content is not an object"
      | some sch =>
        match resolveSchemaRef env sch with
        | .error e => .error e
        | .ok rsch =>
          if rsch.tyOf = some "object" then .ok (rsch, media)
          else .error "Content is not an object"
    else .error ("Unexpected content types: " ++ k)
  | _ => .error "Unexpected content types"

/-- `\w` of the path regex: ASCII letters, digits and underscore. -/
def isWordChar (c : Char) : Bool := c.isAlphanum || c = '_'

/-- A nonempty `\w+` token. -/
def wordOk (s : String) : Bool := !s.isEmpty && s.data.all isWordChar

/-- Splits a character list on a separator (the list of segments between
occurrences of `sep`). -/
def splitOnChar (sep : Char) : List Char → List (List Char)
  | [] => [[]]
  | c :: cs =>
    let r := splitOnChar sep cs
    if c = sep then [] :: r
    else
      match r with
      | [] => [[c]]
      | seg :: rest => (c :: seg) :: rest

/-- The path regex
`/^\/(\{device_type\}|\w+)\/\{device_number\}\/(\w+)$/`: since `/` can
occur neither in `\w+` nor in the two brace literals, a string matches
exactly when splitting it on `/` yields the empty leading segment, the
group segment (the `{device_type}` literal or a word), the
`{device_number}` literal, and the word sub-path. Returns the two
capture groups. -/
def pathMatch (path : String) : Option (String × String) :=
  match splitOnChar '/' path.data with
  | [[], g, dn, sp] =>
    let gs := String.mk g
    let sps := String.mk sp
    if String.mk dn = "{device_number}" ∧ (gs = "{device_type}" ∨ wordOk gs) ∧ wordOk sps
    then some (gs, sps) else none
  | _ => none

/-- `resolveMaybeRef(schema)?.type` for a declared parameter. -/
def paramTypeOf (env : Env) (p : Param) : Option String :=
  match p.schema with
  | none => none
  | some (.ref r) =>
    match lookupStr env.schemaDefs r with
    | some s => s.tyOf
    | none => none
  | some s => s.tyOf

/-- `Object.fromEntries`: later duplicate keys win. -/
def fromEntriesLater {α : Type} (l : List (String × α)) : List (String × α) :=
  l.foldl (fun acc e => setEntry acc e.1 e.2) []

/-- `assert.deepEqual` on two JS objects modelled as association lists
with pairwise-distinct keys: same keys with equal values, ignoring
order. -/
def mapEqUnordered {α : Type} [DecidableEq α]
    (a b : List (String × α)) : Bool :=
  a.all (fun kv => lookupStr b kv.1 = some kv.2) &&
  b.all (fun kv => lookupStr a kv.1 = some kv.2)

/-- The expected path-parameter map: a required string `device_type`
(only when the group is the `{device_type}` placeholder) and a required
integer `device_number`. -/
def expectedPathParams (needsDevType : Bool) :
    List (String × (Option String × Option Bool)) :=
  (if needsDevType then [("device_type", (some "string", some true))] else []) ++
  [("device_number", (some "integer", some true))]

/-- The `assert.deepEqual` over the path parameters: the map from
parameter name to its declared `{type, required}` pair must equal the
expected map exactly. -/
def pathShapeOk (env : Env) (pps : List Param) (needsDevType : Bool) : Bool :=
  mapEqUnordered
    (fromEntriesLater (pps.map (fun p => (p.name, (paramTypeOf env p, p.required)))))
    (expectedPathParams needsDevType)

/-- The property schema accumulated for a query parameter:
`{description: param.description, ...param.schema}` — the spread's own
`description` (when present) wins over the parameter's. A `$ref` value
schema spreads to a `description`/`$ref` hybrid, modelled as the bare
`$ref`. -/
def queryPropSchema (p : Param) : Schema :=
  match p.schema with
  | none => .node none none p.descr none none none .none none .none none
  | some (.ref r) => .ref r
  | some (.node t f d df mn mx ps rq it xk) =>
    .node t f (match d with | some x => some x | none => p.descr) df mn mx ps rq it xk

/-- The query-parameter accumulator schema: an object whose properties
are the query parameters in declaration order; a parameter with a truthy
`required` flag is appended to the `required` list, which is only
created on first use. -/
def buildQuerySchema (qps : List Param) : Schema :=
  let req := (qps.filter (fun p => p.required = some true)).map (·.name)
  .node (some "object") none none none none none
    (.some (propsOfList (qps.map (fun p => (p.name, queryPropSchema p)))))
    (if req = [] then none else some req) .none none

/-- The description-stripped form (`withoutOptFields`) of a media
object. -/
def stripMedia (m : MediaObject) : MediaObject :=
  ⟨m.schema.map stripDescr⟩

/-- The description-stripped form of a request-body/response object. -/
def stripOwner (o : ContentOwner) : ContentOwner :=
  ⟨none, o.content.map (fun l => l.map (fun kv => (kv.1, stripMedia kv.2)))⟩

/-- The description-stripped form of a possibly-`$ref` response. -/
def stripOwnerOrRef : OrRef ContentOwner → OrRef ContentOwner
  | .rref r => .rref r
  | .inline o => .inline (stripOwner o)

/-- `errorResponseShape`: a single `text/plain` content whose schema is
a plain string. -/
def errorResponseShape : ContentOwner :=
  ⟨none, some [("text/plain", ⟨some strSchema⟩)]⟩

/-- The `assert.deepEqual(withoutOptFields(errorResponses), {400: shape,
500: shape})`: after stripping descriptions, the non-200 responses are
exactly the statuses 400 and 500 (an unordered two-key object), each
equal to the fixed error shape. -/
def errShapeOk (errs : List (String × OrRef ContentOwner)) : Bool :=
  match errs with
  | [(k1, v1), (k2, v2)] =>
    ((k1 = "400" && k2 = "500") || (k1 = "500" && k2 = "400")) &&
    stripOwnerOrRef v1 = OrRef.inline errorResponseShape &&
    stripOwnerOrRef v2 = OrRef.inline errorResponseShape
  | _ => false

/-- The request half of the classifier: for the query-style method,
requires query parameters and no request body and builds + tags the
query accumulator (`requestKind` `Query`); otherwise requires no query
parameters and a form-encoded object body, whose schema is tagged
(`requestKind` `Form`). -/
def classifyRequest (env : Env) (method path : String) (qps : List Param)
    (body : Option ContentOwner) : Except String (Schema × String) :=
  if method = "get" then
    if qps = [] then .error ("Missing query parameters for " ++ method ++ " " ++ path)
    else if body ≠ none then .error ("Unexpected request body for " ++ method ++ " " ++ path)
    else
      match setXKind (buildQuerySchema qps) "Request" with
      | .error e => .error e
      | .ok tagged => .ok (tagged, "Query")
  else
    if qps ≠ [] then .error ("Unexpected query parameters for " ++ method ++ " " ++ path)
    else
      match body with
      | none => .error ("Missing request body for " ++ method ++ " " ++ path)
      | some b =>
        match getContent env b "application/x-www-form-urlencoded" with
        | .error e => .error e
        | .ok (sch, _) =>
          match setXKind sch "Request" with
          | .error e => .error e
          | .ok tagged => .ok (tagged, "Form")

/-- The response half of the classifier: the 200 response is mandatory,
the remaining responses must match the fixed 400/500 error shape, and
the 200 response's content must be a single JSON-encoded object-typed
schema, which is tagged `Response`. -/
def classifyResponses (env : Env) (method path : String) (op : Operation) :
    Except String Schema :=
  match lookupStr op.responses "200" with
  | none => .error ("Missing successful response for " ++ method ++ " " ++ path)
  | some sr =>
    if ¬ errShapeOk (op.responses.filter (fun kv => kv.1 ≠ "200")) then
      .error "Unexpected error responses"
    else
      match resolveOwner env sr with
      | .error e => .error e
      | .ok sro =>
        match getContent env sro "application/json" with
        | .error e => .error e
        | .ok (sch, _) => setXKind sch "Response"

/-- The classification result for one operation: the two path tokens,
the tagged request schema with its request kind, and the tagged response
schema. -/
structure ClassifyResult where
  groupPath : String
  subPath : String
  requestSchema : Schema
  requestKind : String
  responseSchema : Schema
  deriving DecidableEq, Repr

/-- The per-operation body of the main loop (`index.ts` lines 157–281),
minus the table registration: validates the tag count, the path shape,
the parameter loci, the path-parameter shapes, then classifies the
request and the responses. -/
def classifyOp (env : Env) (method path : String) (op : Operation) :
    Except String ClassifyResult :=
  if op.tags.map List.length ≠ some 1 then .error "Unexpected number of tags"
  else
    match pathMatch path with
    | none => .error ("Path in unexpected format: " ++ path)
    | some (groupPath, subPath) =>
      match resolveParams env (op.parameters.getD []) with
      | .error e => .error e
      | .ok ps =>
        if ¬ ps.all (fun p => p.locus == "path" || p.locus == "query") then
          .error "Unexpected parameters"
        else
          let pps := ps.filter (fun p => p.locus == "path")
          if pps = [] then .error "TypeError: mapping over undefined path parameters"
          else if ¬ pathShapeOk env pps (groupPath == "{device_type}") then
            .error ("Unexpected path parameters for " ++ method ++ " " ++ path)
          else
            match classifyRequest env method path
                    (ps.filter (fun p => p.locus == "query"))
                    (resolveBody env op.requestBody) with
            | .error e => .error e
            | .ok (reqSchema, reqKind) =>
              match classifyResponses env method path op with
              | .error e => .error e
              | .ok respSchema =>
                .ok ⟨groupPath, subPath, reqSchema, reqKind, respSchema⟩

/-! ## The canonical-name resolver (companion module) -/

/-- ASCII lowercasing of one character (JS `toLowerCase` restricted to
the ASCII word characters the XML patterns produce). -/
def lowerChar (c : Char) : Char :=
  if 'A' ≤ c ∧ c ≤ 'Z' then Char.ofNat (c.toNat + 32) else c

/-- ASCII lowercasing of a string. -/
def lowerStr (s : String) : String := String.mk (s.data.map lowerChar)

/-- A `CanonicalDevice`: the device-group's name (as first registered)
and its method map from lowercased method name to the original-casing
canonical name. -/
structure CanonicalDevice where
  name : String
  methods : List (String × String)
  deriving DecidableEq, Repr

/-- `registerMethod`: stores the canonical name under its lowercased
form. -/
def CanonicalDevice.registerMethod (d : CanonicalDevice) (method : String) :
    CanonicalDevice :=
  { d with methods := setEntry d.methods (lowerStr method) method }

/-- `getMethod`: looks the sub-path up in the method map as given — the
query itself is not lowercased — and fails (via the truthiness assert)
with a message naming the device and the sub-path when absent. -/
def CanonicalDevice.getMethod (d : CanonicalDevice) (subPath : String) :
    Except String String :=
  match lookupStr d.methods subPath with
  | some n =>
    if n = "" then
      .error ("Couldn't find canonical name for " ++ d.name ++ "::" ++ subPath)
    else .ok n
  | none => .error ("Couldn't find canonical name for " ++ d.name ++ "::" ++ subPath)

/-- The registry of canonical devices, keyed by lowercased group
name. -/
structure CanonicalDevices where
  devices : List (String × CanonicalDevice)
  deriving DecidableEq, Repr

/-- One step of the XML scan:
`canonical.registerDevice(device).registerMethod(method)` — creates the
device entry under the lowercased group name on first use (keeping the
original casing as its display name) and registers the method. -/
def CanonicalDevices.registerDeviceMethod (c : CanonicalDevices)
    (device method : String) : CanonicalDevices :=
  let key := lowerStr device
  match lookupStr c.devices key with
  | some d => ⟨setEntry c.devices key (d.registerMethod method)⟩
  | none => ⟨setEntry c.devices key ((CanonicalDevice.mk device []).registerMethod method)⟩

/-- `getDevice`: looks the group up as given — the query itself is not
lowercased — and fails with a message naming the group when absent. -/
def CanonicalDevices.getDevice (c : CanonicalDevices) (path : String) :
    Except String CanonicalDevice :=
  match lookupStr c.devices path with
  | some d => .ok d
  | none => .error ("Couldn't find canonical device for " ++ path)

/-! ### Concrete example operations used in witnesses -/

/-- A required integer `device_number` path parameter. -/
def examplePathParam : Param :=
  ⟨"path", "device_number", some true, some "device number", some (intSchema "uint32")⟩

/-- A required uint32 query parameter. -/
def exampleQueryParam : Param :=
  ⟨"query", "ClientID", some true, some "client id", some (intSchema "uint32")⟩

/-- A form-encoded request body with a bare object schema. -/
def exampleFormBody : ContentOwner :=
  ⟨none, some [("application/x-www-form-urlencoded",
     ⟨some (.node (some "object") none none none none none (.some .nil) none .none none)⟩)]⟩

/-- A JSON success response with a bare object schema. -/
def exampleJsonResponse : ContentOwner :=
  ⟨some "OK", some [("application/json",
     ⟨some (.node (some "object") none none none none none (.some .nil) none .none none)⟩)]⟩

/-- The fixed plain-text error response. -/
def exampleErrResponse : ContentOwner :=
  ⟨some "Error message", some [("text/plain", ⟨some strSchema⟩)]⟩

/-- A well-formed non-`get` operation: one tag, the `device_number` path
parameter, a form body, and the mandatory 200/400/500 responses. -/
def examplePutOperation : Operation :=
  ⟨some ["Camera"], some [.inline examplePathParam], some (.inline exampleFormBody),
   [("200", .inline exampleJsonResponse), ("400", .inline exampleErrResponse),
    ("500", .inline exampleErrResponse)]⟩

/-- A well-formed `get` operation: one tag, the `device_number` path
parameter, one query parameter, no body, and the mandatory
responses. -/
def exampleGetOperation : Operation :=
  ⟨some ["Camera"], some [.inline examplePathParam, .inline exampleQueryParam], none,
   [("200", .inline exampleJsonResponse), ("400", .inline exampleErrResponse),
    ("500", .inline exampleErrResponse)]⟩

/-- The query accumulator schema built from `exampleGetOperation`'s one
query parameter, tagged `Request`. -/
def exampleQueryRequestSchema : Schema :=
  .node (some "object") none none none none none
    (.some (.cons "ClientID"
      (.node (some "integer") (some "uint32") (some "client id") none
        none none .none none .none none) .nil))
    (some ["ClientID"]) .none (some "Request")

/-- An empty reference-resolution environment (everything inline). -/
def emptyEnv : Env := ⟨[], [], [], []⟩

/-! ## Helper lemmas -/

instance exceptDecEq {ε α : Type} [DecidableEq ε] [DecidableEq α] :
    DecidableEq (Except ε α) := fun a b =>
  match a, b with
  | .ok x, .ok y =>
    if h : x = y then .isTrue (by rw [h]) else .isFalse (by simp [h])
  | .error x, .error y =>
    if h : x = y then .isTrue (by rw [h]) else .isFalse (by simp [h])
  | .ok _, .error _ => .isFalse (by simp)
  | .error _, .ok _ => .isFalse (by simp)

theorem lookupStr_setEntry_self {α : Type} (l : List (String × α)) (k : String) (v : α) :
    lookupStr (setEntry l k v) k = some v := by
  induction l with
  | nil => simp [setEntry, lookupStr]
  | cons e rest ih =>
    by_cases h : e.1 = k
    · simp [setEntry, h, lookupStr]
    · simpa [setEntry, h, lookupStr, List.find?] using ih

theorem mem_setEntry {α : Type} (l : List (String × α)) (k : String) (v : α)
    (n : String) (s : α) (h : (n, s) ∈ setEntry l k v) :
    (n, s) ∈ l ∨ (n, s) = (k, v) := by
  induction l with
  | nil => simpa [setEntry] using h
  | cons e rest ih =>
    by_cases he : e.1 = k
    · simp only [setEntry, he, if_true, List.mem_cons] at h
      rcases h with h | h
      · exact Or.inr h
      · exact Or.inl (List.mem_cons_of_mem _ h)
    · simp only [setEntry, he, if_false, List.mem_cons] at h
      rcases h with h | h
      · exact Or.inl (h ▸ List.mem_cons_self _ _)
      · rcases ih h with h' | h'
        · exact Or.inl (List.mem_cons_of_mem _ h')
        · exact Or.inr h'

theorem lookup_removeNames : ∀ (props : Props) (names : List String) (p : String),
    p ∈ names → (props.removeNames names).lookup p = none
  | .nil, names, p, _ => by simp [Props.removeNames, Props.lookup]
  | .cons k v rest, names, p, hp => by
    by_cases hk : k ∈ names
    · simpa [Props.removeNames, hk] using lookup_removeNames rest names p hp
    · have hne : k ≠ p := fun h => hk (h ▸ hp)
      simpa [Props.removeNames, hk, Props.lookup, hne]
        using lookup_removeNames rest names p hp

/-- `setXKind` only rewrites the `x-kind` field. -/
theorem setXKind_ok_kind (s : Schema) (kind : String) (s' : Schema)
    (h : setXKind s kind = .ok s') : s'.xKindOf = some kind := by
  cases s with
  | ref r => simp [setXKind] at h
  | node t f d df mn mx ps rq it xk =>
    cases xk with
    | none =>
      simp only [setXKind] at h
      cases h
      rfl
    | some prev =>
      simp only [setXKind] at h
      split at h
      · cases h; rfl
      · split at h
        · cases h; rfl
        · cases h

/-! ## C3: kind exclusivity of `setXKind` -/

/-- C3: for every schema, re-tagging with a different (nonempty) kind
than the one already present is a fatal error; re-setting the same kind
succeeds and leaves the schema unchanged; and whenever tagging succeeds
the schema carries exactly the requested kind, so a schema never holds
two different kind tags. -/
theorem c3_setXKind_exclusive :
    (∀ s prev kind, s.xKindOf = some prev → prev ≠ "" → prev ≠ kind →
       ∃ e, setXKind s kind = .error e) ∧
    (∀ s kind, s.xKindOf = some kind → setXKind s kind = .ok s) ∧
    (∀ s kind s', setXKind s kind = .ok s' → s'.xKindOf = some kind) := by
  refine ⟨?_, ?_, setXKind_ok_kind⟩
  · intro s prev kind hprev hne hneq
    cases s with
    | ref r => simp [Schema.xKindOf] at hprev
    | node t f d df mn mx ps rq it xk =>
      simp only [Schema.xKindOf] at hprev
      subst hprev
      refine ⟨"Conflicting x-kind: " ++ prev ++ " vs " ++ kind, ?_⟩
      simp [setXKind, hne, hneq]
  · intro s kind hkind
    cases s with
    | ref r => simp [Schema.xKindOf] at hkind
    | node t f d df mn mx ps rq it xk =>
      simp only [Schema.xKindOf] at hkind
      subst hkind
      by_cases he : kind = ""
      · simp [setXKind, he]
      · simp [setXKind, he]

/-- Witness for C3 (the spec's own test case): a schema tagged `Path`
cannot be re-tagged `Query`. -/
theorem c3_witness :
    (emptyKindSchema "Path").xKindOf = some "Path" ∧
    (∃ e, setXKind (emptyKindSchema "Path") "Query" = .error e) :=
  ⟨by decide,
   c3_setXKind_exclusive.1 (emptyKindSchema "Path") "Path" "Query"
     (by decide) (by decide) (by decide)⟩

/-! ## C5: the Canonicalizer on integer schemas -/

/-- C5: the Canonicalizer defaults a missing integer `format` to
`int32` (behaving exactly as if `int32` had been declared); it removes
`minimum`/`maximum` that match the full `uint32` (0..4294967295) or
`int32` (−2147483648..2147483647) range exactly; a `minimum` of 1 is
retained under every format; and integers share the drop-a-zero-default
rule with `number`. -/
theorem c5_integer_canonicalization :
    (∀ d df mn mx ps rq it xk,
       cleanupSchema (.node (some "integer") none d df mn mx ps rq it xk) =
         cleanupSchema (.node (some "integer") (some "int32") d df mn mx ps rq it xk) ∧
       (cleanupSchema (.node (some "integer") none d df mn mx ps rq it xk)).map
         Schema.formatOf = .ok (some "int32")) ∧
    (∀ d df ps rq it xk,
       (cleanupSchema (.node (some "integer") (some "uint32") d df
          (some 0) (some 4294967295) ps rq it xk)).map
         (fun s' => (s'.minimumOf, s'.maximumOf)) = .ok (none, none)) ∧
    (∀ d df ps rq it xk,
       (cleanupSchema (.node (some "integer") (some "int32") d df
          (some (-2147483648)) (some 2147483647) ps rq it xk)).map
         (fun s' => (s'.minimumOf, s'.maximumOf)) = .ok (none, none)) ∧
    (∀ f d df mx ps rq it xk,
       (cleanupSchema (.node (some "integer") f d df (some 1) mx ps rq it xk)).map
         Schema.minimumOf = .ok (some 1)) ∧
    (∀ f d mn mx ps rq it xk,
       (cleanupSchema (.node (some "integer") f d (some (.i 0)) mn mx ps rq it xk)).map
         Schema.dfltOf = .ok none) ∧
    (∀ f d mn mx ps rq it xk,
       (cleanupSchema (.node (some "number") f d (some (.i 0)) mn mx ps rq it xk)).map
         Schema.dfltOf = .ok none) := by
  refine ⟨?_, ?_, ?_, ?_, ?_, ?_⟩
  · intro d df mn mx ps rq it xk
    exact ⟨by simp [cleanupSchema], by simp [cleanupSchema, dropDflt, intMinClean, intMaxClean, Except.map, Schema.formatOf]⟩
  · intro d df ps rq it xk
    simp [cleanupSchema, dropDflt, intMinClean, intMaxClean, Except.map, Schema.minimumOf, Schema.maximumOf]
  · intro d df ps rq it xk
    simp [cleanupSchema, dropDflt, intMinClean, intMaxClean, Except.map, Schema.minimumOf, Schema.maximumOf]
  · intro f d df mx ps rq it xk
    rcases f with _ | fv
    · simp [cleanupSchema, dropDflt, intMinClean, intMaxClean, Except.map, Schema.minimumOf]
    · by_cases h32 : fv = "int32"
      · simp [cleanupSchema, dropDflt, intMinClean, intMaxClean, Except.map, Schema.minimumOf, h32]
      · by_cases hu32 : fv = "uint32"
        · simp [cleanupSchema, dropDflt, intMinClean, intMaxClean, Except.map, Schema.minimumOf, h32, hu32]
        · simp [cleanupSchema, dropDflt, intMinClean, intMaxClean, Except.map, Schema.minimumOf, h32, hu32]
  · intro f d mn mx ps rq it xk
    simp [cleanupSchema, dropDflt, intMinClean, intMaxClean, Except.map, Schema.dfltOf]
  · intro f d mn mx ps rq it xk
    simp [cleanupSchema, dropDflt, intMinClean, intMaxClean, Except.map, Schema.dfltOf]

/-! ## C8: canonical-name lookup -/

/-- C8 counterexample: the lookup is not case-insensitive in the query.
Registering the group `Camera` stores it under the lowercased key, and
`getDevice` does not lowercase its argument, so looking the group up
under the very casing it was registered with fails fatally. -/
theorem c8_counterexample :
    ((CanonicalDevices.mk []).registerDeviceMethod "Camera" "ImageArray").getDevice "Camera"
      = .error "Couldn't find canonical device for Camera" := by decide

/-- C8 (amended): registration normalizes group and method names to
lowercase, so looking up the lowercased group and sub-path succeeds for
any registered casing; the query itself is not case-normalized; and
every lookup failure is fatal with a message naming the group
(`getDevice`) or the device and sub-path (`getMethod`). -/
theorem c8_canonical_lookup :
    (∀ (c : CanonicalDevices) (d m : String), m ≠ "" →
       ∃ dev, (c.registerDeviceMethod d m).getDevice (lowerStr d) = .ok dev ∧
         dev.getMethod (lowerStr m) = .ok m) ∧
    (∀ (dev : CanonicalDevice) (sp : String), lookupStr dev.methods sp = none →
       dev.getMethod sp =
         .error ("Couldn't find canonical name for " ++ dev.name ++ "::" ++ sp)) ∧
    (∀ (dev : CanonicalDevice) (sp e : String), dev.getMethod sp = .error e →
       e = "Couldn't find canonical name for " ++ dev.name ++ "::" ++ sp) ∧
    (∀ (c : CanonicalDevices) (p : String), lookupStr c.devices p = none →
       c.getDevice p = .error ("Couldn't find canonical device for " ++ p)) ∧
    (∀ (c : CanonicalDevices) (p e : String), c.getDevice p = .error e →
       e = "Couldn't find canonical device for " ++ p) := by
  refine ⟨?_, ?_, ?_, ?_, ?_⟩
  · intro c d m hm
    rcases h : lookupStr c.devices (lowerStr d) with _ | dev
    · refine ⟨(CanonicalDevice.mk d []).registerMethod m, ?_, ?_⟩
      · simp [CanonicalDevices.registerDeviceMethod, h, CanonicalDevices.getDevice,
              lookupStr_setEntry_self]
      · simp [CanonicalDevices.registerDeviceMethod, h, CanonicalDevice.getMethod,
              CanonicalDevice.registerMethod, lookupStr_setEntry_self, hm]
    · refine ⟨dev.registerMethod m, ?_, ?_⟩
      · simp [CanonicalDevices.registerDeviceMethod, h, CanonicalDevices.getDevice,
              lookupStr_setEntry_self]
      · simp [CanonicalDevices.registerDeviceMethod, h, CanonicalDevice.getMethod,
              CanonicalDevice.registerMethod, lookupStr_setEntry_self, hm]
  · intro dev sp h
    simp [CanonicalDevice.getMethod, h]
  · intro dev sp e h
    rcases hl : lookupStr dev.methods sp with _ | n
    · simp only [CanonicalDevice.getMethod, hl] at h
      injection h with h'
      exact h'.symm
    · simp only [CanonicalDevice.getMethod, hl] at h
      split at h
      · injection h with h'
        exact h'.symm
      · simp at h
  · intro c p h
    simp [CanonicalDevices.getDevice, h]
  · intro c p e h
    rcases hl : lookupStr c.devices p with _ | d
    · simp only [CanonicalDevices.getDevice, hl] at h
      injection h with h'
      exact h'.symm
    · simp only [CanonicalDevices.getDevice, hl] at h
      simp at h

/-- Witness for C8 (amended): the lowercased forms of `Camera` and
`ImageArray` resolve to the registered canonical names. -/
theorem c8_witness :
    ("ImageArray" : String) ≠ "" ∧
    (∃ dev, ((CanonicalDevices.mk []).registerDeviceMethod "Camera" "ImageArray").getDevice
        (lowerStr "Camera") = .ok dev ∧
      dev.getMethod (lowerStr "ImageArray") = .ok "ImageArray") :=
  ⟨by decide,
   c8_canonical_lookup.1 (CanonicalDevices.mk []) "Camera" "ImageArray" (by decide)⟩

/-! ## C1 and C7: envelope stripping -/

/-- Characterization of a successful `Response` strip: the schema is an
inline object whose four envelope properties pass the shape check, and
the result is the same node with those properties removed. -/
theorem stripResponse_ok_elim (nm : String) (s s' : Schema)
    (h : stripResponse nm s = .ok s') :
    ∃ t f d df mn mx props rq it xk,
      s = .node t f d df mn mx (.some props) rq it xk ∧
      s' = .node t f d df mn mx (.some (props.removeNames envResponseNames)) rq it xk ∧
      envRespOk props = true := by
  cases s with
  | ref r => simp [stripResponse] at h
  | node t f d df mn mx ps rq it xk =>
    cases ps with
    | none => simp [stripResponse] at h
    | some props =>
      simp only [stripResponse] at h
      split at h
      · refine ⟨t, f, d, df, mn, mx, props, rq, it, xk, rfl, ?_, by assumption⟩
        cases h
        rfl
      · cases h

/-- Characterization of a successful `Request` strip. -/
theorem stripRequest_ok_elim (nm : String) (s s' : Schema)
    (h : stripRequest nm s = .ok s') :
    ∃ t f d df mn mx props rq it xk cid ctid,
      s = .node t f d df mn mx (.some props) rq it xk ∧
      s' = .node t f d df mn mx (.some (props.removeNames envRequestNames)) rq it xk ∧
      props.lookup "ClientID" = some cid ∧
      props.lookup "ClientTransactionID" = some ctid ∧
      envReqOk cid ctid = true := by
  cases s with
  | ref r => simp [stripRequest] at h
  | node t f d df mn mx ps rq it xk =>
    cases ps with
    | none => simp [stripRequest] at h
    | some props =>
      simp only [stripRequest] at h
      split at h
      · rename_i cid ctid hcid hctid
        split at h
        · rename_i hok
          cases h
          exact ⟨t, f, d, df, mn, mx, props, rq, it, xk, cid, ctid,
            rfl, rfl, hcid, hctid, hok⟩
        · cases h
      · cases h

/-- After a successful `Response` strip, none of the four envelope
properties remains. -/
theorem stripResponse_ok_props (nm : String) (s s' : Schema)
    (h : stripResponse nm s = .ok s') :
    ∀ p ∈ envResponseNames, s'.propLookup p = none := by
  obtain ⟨t, f, d, df, mn, mx, props, rq, it, xk, _, hs', _⟩ :=
    stripResponse_ok_elim nm s s' h
  intro p hp
  subst hs'
  simp [Schema.propLookup, Schema.propsOf, lookup_removeNames props envResponseNames p hp]

/-- After a successful `Request` strip, neither client-id property
remains. -/
theorem stripRequest_ok_props (nm : String) (s s' : Schema)
    (h : stripRequest nm s = .ok s') :
    ∀ p ∈ envRequestNames, s'.propLookup p = none := by
  obtain ⟨t, f, d, df, mn, mx, props, rq, it, xk, cid, ctid, _, hs', _⟩ :=
    stripRequest_ok_elim nm s s' h
  intro p hp
  subst hs'
  simp [Schema.propLookup, Schema.propsOf, lookup_removeNames props envRequestNames p hp]

/-- The `Request` strip leaves the `x-kind` tag unchanged. -/
theorem stripRequest_ok_xKind (nm : String) (s s' : Schema)
    (h : stripRequest nm s = .ok s') : s'.xKindOf = s.xKindOf := by
  obtain ⟨t, f, d, df, mn, mx, props, rq, it, xk, cid, ctid, hs, hs', _⟩ :=
    stripRequest_ok_elim nm s s' h
  subst hs
  subst hs'
  rfl

/-- Every schema surviving `processEntry` with a `Response` tag has had
the four envelope properties removed. -/
theorem processEntry_response_clean (nm : String) (s s' : Schema)
    (h : processEntry nm s = .ok s') (hk : s'.xKindOf = some "Response") :
    ∀ p ∈ envResponseNames, s'.propLookup p = none := by
  simp only [processEntry] at h
  split at h
  · cases h
  · rename_i s₁ hc
    split at h
    · rename_i hresp
      exact stripResponse_ok_props nm s₁ s' h
    · rename_i hreq
      have hx := stripRequest_ok_xKind nm s₁ s' h
      rw [hreq] at hx
      rw [hx] at hk
      simp at hk
    · rename_i hkind hnr hnq
      cases h
      rw [hk] at hnr
      exact absurd rfl hnr

/-- Every entry of the table produced by `dedupStep` either was already
there or is the processed image of the step's entry. -/
theorem dedupStep_table_mem (acc acc' : PassAcc) (e : String × Schema)
    (h : dedupStep acc e = .ok acc') (n : String) (s : Schema)
    (hm : (n, s) ∈ acc'.table) :
    (n, s) ∈ acc.table ∨ processEntry e.1 e.2 = .ok s := by
  simp only [dedupStep] at h
  split at h
  · cases h
  · rename_i s₁ hp
    split at h
    · rename_i rep hx
      cases h
      exact Or.inl hm
    · rename_i hx
      cases h
      simp only [List.mem_append, List.mem_singleton] at hm
      rcases hm with hm | hm
      · exact Or.inl hm
      · cases hm
        exact Or.inr hp

/-- Every entry of the table accumulated by `dedupLoop` either was in
the initial accumulator or is the processed image of an input
entry. -/
theorem dedupLoop_table_mem : ∀ (entries : List (String × Schema)) (acc r : PassAcc),
    dedupLoop acc entries = .ok r → ∀ n s, (n, s) ∈ r.table →
    (n, s) ∈ acc.table ∨ ∃ e ∈ entries, processEntry e.1 e.2 = .ok s
  | [], acc, r, h, n, s, hm => by
    simp only [dedupLoop] at h
    cases h
    exact Or.inl hm
  | e :: rest, acc, r, h, n, s, hm => by
    simp only [dedupLoop] at h
    split at h
    · cases h
    · rename_i acc' hstep
      rcases dedupLoop_table_mem rest acc' r h n s hm with hm' | ⟨e', he', hp⟩
      · rcases dedupStep_table_mem acc acc' e hstep n s hm' with hm'' | hp
        · exact Or.inl hm''
        · exact Or.inr ⟨e, List.mem_cons_self _ _, hp⟩
      · exact Or.inr ⟨e', List.mem_cons_of_mem _ he', hp⟩

/-- Every entry of `assignExtras t` comes from `t` or is one of the
extra schemas. -/
theorem mem_assignExtras (t : List (String × Schema)) (n : String) (s : Schema)
    (h : (n, s) ∈ assignExtras t) : (n, s) ∈ t ∨ (n, s) ∈ extraSchemas := by
  have hunfold : assignExtras t =
      setEntry (setEntry (setEntry t "EmptyPath" (emptyKindSchema "Path"))
        "EmptyRequest" (emptyKindSchema "Request"))
        "EmptyResponse" (emptyKindSchema "Response") := by
    simp [assignExtras, extraSchemas]
  rw [hunfold] at h
  rcases mem_setEntry _ _ _ _ _ h with h1 | h1
  · rcases mem_setEntry _ _ _ _ _ h1 with h2 | h2
    · rcases mem_setEntry _ _ _ _ _ h2 with h3 | h3
      · exact Or.inl h3
      · exact Or.inr (by rw [h3]; simp [extraSchemas])
    · exact Or.inr (by rw [h2]; simp [extraSchemas])
  · exact Or.inr (by rw [h1]; simp [extraSchemas])

/-- C1: after the table pass, every schema still tagged `Response` has
none of the four envelope properties (ClientTransactionID,
ServerTransactionID, ErrorNumber, ErrorMessage) in its property set; and
the `Response` strip succeeds exactly when all four are present with
their exact declared shapes — uint32/uint32/int32 integers and a string
— compared after stripping descriptions, so a missing or misshapen
envelope property is a fatal error. -/
theorem c1_response_envelope :
    (∀ table r n s, dedupPass table = .ok r → (n, s) ∈ r.table →
       s.xKindOf = some "Response" → ∀ p ∈ envResponseNames, s.propLookup p = none) ∧
    (∀ nm s, (∃ s', stripResponse nm s = .ok s') ↔
       ∃ props, s.propsOf = .some props ∧
         ∀ e ∈ envResponseShapes, (props.lookup e.1).map stripDescr = some e.2) := by
  constructor
  · intro table r n s hpass hmem hkind
    simp only [dedupPass] at hpass
    split at hpass
    · cases hpass
    · rename_i acc hloop
      cases hpass
      rcases mem_assignExtras acc.table n s hmem with hm | hm
      · rcases dedupLoop_table_mem table ⟨[], [], []⟩ acc hloop n s hm with hm' | ⟨e, _, hp⟩
        · simp at hm'
        · exact processEntry_response_clean e.1 e.2 s hp hkind
      · revert hkind
        have : ∀ p ∈ extraSchemas,
            p.2.xKindOf = some "Response" →
            ∀ q ∈ envResponseNames, p.2.propLookup q = none := by decide
        exact this (n, s) hm
  · intro nm s
    constructor
    · rintro ⟨s', h⟩
      obtain ⟨t, f, d, df, mn, mx, props, rq, it, xk, hs, _, hok⟩ :=
        stripResponse_ok_elim nm s s' h
      refine ⟨props, by rw [hs]; rfl, ?_⟩
      intro e he
      have := (List.all_eq_true.mp hok) e he
      simpa using this
    · rintro ⟨props, hprops, hall⟩
      cases s with
      | ref r => simp [Schema.propsOf] at hprops
      | node t f d df mn mx ps rq it xk =>
        simp only [Schema.propsOf] at hprops
        subst hprops
        have hok : envRespOk props = true := by
          apply List.all_eq_true.mpr
          intro e he
          simpa using hall e he
        exact ⟨.node t f d df mn mx (.some (props.removeNames envResponseNames)) rq it xk,
          by simp [stripResponse, hok]⟩

/-- Witness for C1: the pass over the empty table yields the extras
table, whose `Response`-tagged entry (`EmptyResponse`) carries no
envelope property. -/
theorem c1_witness :
    dedupPass [] = .ok ⟨extraSchemas, [], []⟩ ∧
    (∀ p ∈ envResponseNames, (emptyKindSchema "Response").propLookup p = none) :=
  ⟨by decide, fun p hp =>
    c1_response_envelope.1 [] ⟨extraSchemas, [], []⟩ "EmptyResponse"
      (emptyKindSchema "Response") (by decide) (by decide) (by decide) p hp⟩

/-- C7: the `Request` strip succeeds exactly when both client-id
properties are present and, after deleting their `default` values and
stripping descriptions, are exactly integer/uint32 — so inconsistent
defaults and descriptions are tolerated while a missing property or any
other shape difference is a fatal error; on success both properties are
removed from the schema. -/
theorem c7_request_envelope :
    (∀ nm s, (∃ s', stripRequest nm s = .ok s') ↔
       ∃ props cid ctid, s.propsOf = .some props ∧
         props.lookup "ClientID" = some cid ∧
         props.lookup "ClientTransactionID" = some ctid ∧
         stripDescr cid.delDflt = intSchema "uint32" ∧
         stripDescr ctid.delDflt = intSchema "uint32") ∧
    (∀ nm s s', stripRequest nm s = .ok s' →
       s'.propLookup "ClientID" = none ∧
       s'.propLookup "ClientTransactionID" = none) := by
  constructor
  · intro nm s
    constructor
    · rintro ⟨s', h⟩
      obtain ⟨t, f, d, df, mn, mx, props, rq, it, xk, cid, ctid, hs, _, hcid, hctid, hok⟩ :=
        stripRequest_ok_elim nm s s' h
      simp only [envReqOk, Bool.and_eq_true, beq_iff_eq] at hok
      exact ⟨props, cid, ctid, by rw [hs]; rfl, hcid, hctid, hok.1, hok.2⟩
    · rintro ⟨props, cid, ctid, hprops, hcid, hctid, h1, h2⟩
      cases s with
      | ref r => simp [Schema.propsOf] at hprops
      | node t f d df mn mx ps rq it xk =>
        simp only [Schema.propsOf] at hprops
        subst hprops
        have hok : envReqOk cid ctid = true := by
          simp [envReqOk, h1, h2]
        exact ⟨.node t f d df mn mx (.some (props.removeNames envRequestNames)) rq it xk,
          by simp [stripRequest, hcid, hctid, hok]⟩
  · intro nm s s' h
    have := stripRequest_ok_props nm s s' h
    exact ⟨this "ClientID" (by decide), this "ClientTransactionID" (by decide)⟩

/-- Witness for C7: a concrete request schema with the two client-id
properties (one carrying a default and a description) plus a payload
property strips to the payload alone. -/
theorem c7_witness :
    stripRequest "W"
      (.node (some "object") none none none none none
        (.some (propsOfList
          [("ClientID",
            .node (some "integer") (some "uint32") (some "client id") (some (.i 1))
              none none .none none .none none),
           ("ClientTransactionID", intSchema "uint32"),
           ("Brightness", intSchema "int32")]))
        none .none (some "Request")) =
      .ok (.node (some "object") none none none none none
        (.some (propsOfList [("Brightness", intSchema "int32")]))
        none .none (some "Request")) ∧
    ((Schema.node (some "object") none none none none none
        (.some (propsOfList [("Brightness", intSchema "int32")]))
        none .none (some "Request")).propLookup "ClientID" = none ∧
     (Schema.node (some "object") none none none none none
        (.some (propsOfList [("Brightness", intSchema "int32")]))
        none .none (some "Request")).propLookup "ClientTransactionID" = none) :=
  ⟨by decide,
   c7_request_envelope.2 "W"
     (.node (some "object") none none none none none
       (.some (propsOfList
         [("ClientID",
           .node (some "integer") (some "uint32") (some "client id") (some (.i 1))
             none none .none none .none none),
          ("ClientTransactionID", intSchema "uint32"),
          ("Brightness", intSchema "int32")]))
       none .none (some "Request"))
     (.node (some "object") none none none none none
       (.some (propsOfList [("Brightness", intSchema "int32")]))
       none .none (some "Request"))
     (by decide)⟩

/-! ## C2: deduplication of structurally identical schemas -/

theorem mem_setEntry_of_ne {α : Type} (l : List (String × α)) (k : String) (v : α)
    (n : String) (s : α) (h : (n, s) ∈ l) (hne : n ≠ k) :
    (n, s) ∈ setEntry l k v := by
  induction l with
  | nil => simp at h
  | cons e rest ih =>
    rcases List.mem_cons.mp h with h1 | h1
    · cases h1
      simp only [setEntry]
      rw [if_neg hne]
      exact List.mem_cons_self _ _
    · simp only [setEntry]
      split
      · exact List.mem_cons_of_mem _ h1
      · exact List.mem_cons_of_mem _ (ih h1)

theorem mem_assignExtras_of_mem (t : List (String × Schema)) (n : String) (s : Schema)
    (h : (n, s) ∈ t) (h1 : n ≠ "EmptyPath") (h2 : n ≠ "EmptyRequest")
    (h3 : n ≠ "EmptyResponse") : (n, s) ∈ assignExtras t := by
  have hunfold : assignExtras t =
      setEntry (setEntry (setEntry t "EmptyPath" (emptyKindSchema "Path"))
        "EmptyRequest" (emptyKindSchema "Request"))
        "EmptyResponse" (emptyKindSchema "Response") := by
    simp [assignExtras, extraSchemas]
  rw [hunfold]
  exact mem_setEntry_of_ne _ _ _ _ _
    (mem_setEntry_of_ne _ _ _ _ _ (mem_setEntry_of_ne _ _ _ _ _ h h1) h2) h3

/-- C2 counterexample: two structurally identical request schemas whose
only difference is a property description (`AReq`/`BReq`, each a valid
`Request` schema with one payload property) are NOT merged by the
deduplication pass: no reference-replacement is recorded and both remain
distinct table entries (they are merely counted in the same duplicate
group) — merging happens only against the extra/canonical schemas. -/
theorem c2_counterexample :
    stripDescr (exampleRequestStripped "brightness a") =
      stripDescr (exampleRequestStripped "brightness b") ∧
    (dedupPass
      [("AReq", exampleRequestSchema "brightness a"),
       ("BReq", exampleRequestSchema "brightness b")]).map
      (fun r => (r.refReplacements, r.table.map (·.1),
                 r.groupCounts.map (·.2))) =
    .ok ([], ["AReq", "BReq", "EmptyPath", "EmptyRequest", "EmptyResponse"], [2]) := by
  exact ⟨by decide, by decide⟩

/-- C2 (amended): processed table entries with equal dedup keys
(e.g. request schemas identical up to description text) are merged into
a single shared reference — with a reference-replacement recorded for
each — exactly when their common key matches an extra/canonical schema's
key; otherwise both remain distinct table entries and are counted in the
same duplicate group (reported, not merged). Entries with distinct keys
(e.g. differing in a numeric default not covered by the ignore rules)
always remain distinct, each counted alone. -/
theorem c2_dedup_key_behavior :
    (∀ n1 n2 s1 s2 r s1' s2' rep,
       dedupPass [(n1, s1), (n2, s2)] = .ok r →
       processEntry n1 s1 = .ok s1' → processEntry n2 s2 = .ok s2' →
       stripDescr s1' = stripDescr s2' →
       extrasKeyLookup (stripDescr s1') = some rep →
       r.refReplacements =
         [(schemaRefOf n1, schemaRefOf rep), (schemaRefOf n2, schemaRefOf rep)]) ∧
    (∀ n1 n2 s1 s2 r s1' s2',
       dedupPass [(n1, s1), (n2, s2)] = .ok r →
       processEntry n1 s1 = .ok s1' → processEntry n2 s2 = .ok s2' →
       stripDescr s1' = stripDescr s2' →
       extrasKeyLookup (stripDescr s1') = none →
       n1 ≠ "EmptyPath" → n1 ≠ "EmptyRequest" → n1 ≠ "EmptyResponse" →
       n2 ≠ "EmptyPath" → n2 ≠ "EmptyRequest" → n2 ≠ "EmptyResponse" →
       r.refReplacements = [] ∧ (n1, s1') ∈ r.table ∧ (n2, s2') ∈ r.table ∧
       r.groupCounts = [(stripDescr s1', 2)]) ∧
    (∀ n1 n2 s1 s2 r s1' s2',
       dedupPass [(n1, s1), (n2, s2)] = .ok r →
       processEntry n1 s1 = .ok s1' → processEntry n2 s2 = .ok s2' →
       stripDescr s1' ≠ stripDescr s2' →
       extrasKeyLookup (stripDescr s1') = none →
       extrasKeyLookup (stripDescr s2') = none →
       n1 ≠ "EmptyPath" → n1 ≠ "EmptyRequest" → n1 ≠ "EmptyResponse" →
       n2 ≠ "EmptyPath" → n2 ≠ "EmptyRequest" → n2 ≠ "EmptyResponse" →
       r.refReplacements = [] ∧ (n1, s1') ∈ r.table ∧ (n2, s2') ∈ r.table ∧
       r.groupCounts = [(stripDescr s1', 1), (stripDescr s2', 1)]) := by
  refine ⟨?_, ?_, ?_⟩
  · intro n1 n2 s1 s2 r s1' s2' rep hpass hp1 hp2 hkey hrep
    have hrep2 : extrasKeyLookup (stripDescr s2') = some rep := by
      rw [← hkey]; exact hrep
    have hcomp : dedupPass [(n1, s1), (n2, s2)] =
        .ok ⟨assignExtras [],
             [(schemaRefOf n1, schemaRefOf rep), (schemaRefOf n2, schemaRefOf rep)],
             []⟩ := by
      simp [dedupPass, dedupLoop, dedupStep, hp1, hp2, hrep, hrep2]
    rw [hcomp] at hpass
    cases hpass
    rfl
  · intro n1 n2 s1 s2 r s1' s2' hpass hp1 hp2 hkey hnone
      hn1p hn1q hn1r hn2p hn2q hn2r
    have hnone2 : extrasKeyLookup (stripDescr s2') = none := by
      rw [← hkey]; exact hnone
    have hcomp : dedupPass [(n1, s1), (n2, s2)] =
        .ok ⟨assignExtras [(n1, s1'), (n2, s2')], [],
             [(stripDescr s1', 2)]⟩ := by
      simp [dedupPass, dedupLoop, dedupStep, hp1, hp2, hnone, hnone2,
            bumpCount, ← hkey]
    rw [hcomp] at hpass
    cases hpass
    refine ⟨rfl, ?_, ?_, rfl⟩
    · exact mem_assignExtras_of_mem _ _ _ (by simp) hn1p hn1q hn1r
    · exact mem_assignExtras_of_mem _ _ _ (by simp) hn2p hn2q hn2r
  · intro n1 n2 s1 s2 r s1' s2' hpass hp1 hp2 hkey hnone1 hnone2
      hn1p hn1q hn1r hn2p hn2q hn2r
    have hcomp : dedupPass [(n1, s1), (n2, s2)] =
        .ok ⟨assignExtras [(n1, s1'), (n2, s2')], [],
             [(stripDescr s1', 1), (stripDescr s2', 1)]⟩ := by
      simp [dedupPass, dedupLoop, dedupStep, hp1, hp2, hnone1, hnone2,
            bumpCount, hkey, Ne.symm hkey]
    rw [hcomp] at hpass
    cases hpass
    refine ⟨rfl, ?_, ?_, rfl⟩
    · exact mem_assignExtras_of_mem _ _ _ (by simp) hn1p hn1q hn1r
    · exact mem_assignExtras_of_mem _ _ _ (by simp) hn2p hn2q hn2r

/-- Witness for C2 (amended): the `AReq`/`BReq` pair instantiates the
shared-key, non-extra branch — both survive as distinct table entries
counted in one duplicate group of size 2, with no replacement. -/
theorem c2_witness :
    (PassAcc.mk
      [("AReq", exampleRequestStripped "brightness a"),
       ("BReq", exampleRequestStripped "brightness b"),
       ("EmptyPath", emptyKindSchema "Path"),
       ("EmptyRequest", emptyKindSchema "Request"),
       ("EmptyResponse", emptyKindSchema "Response")]
      [] [(exampleRequestKey, 2)]).refReplacements = [] ∧
    ("AReq", exampleRequestStripped "brightness a") ∈
      (PassAcc.mk
        [("AReq", exampleRequestStripped "brightness a"),
         ("BReq", exampleRequestStripped "brightness b"),
         ("EmptyPath", emptyKindSchema "Path"),
         ("EmptyRequest", emptyKindSchema "Request"),
         ("EmptyResponse", emptyKindSchema "Response")]
        [] [(exampleRequestKey, 2)]).table ∧
    ("BReq", exampleRequestStripped "brightness b") ∈
      (PassAcc.mk
        [("AReq", exampleRequestStripped "brightness a"),
         ("BReq", exampleRequestStripped "brightness b"),
         ("EmptyPath", emptyKindSchema "Path"),
         ("EmptyRequest", emptyKindSchema "Request"),
         ("EmptyResponse", emptyKindSchema "Response")]
        [] [(exampleRequestKey, 2)]).table ∧
    (PassAcc.mk
      [("AReq", exampleRequestStripped "brightness a"),
       ("BReq", exampleRequestStripped "brightness b"),
       ("EmptyPath", emptyKindSchema "Path"),
       ("EmptyRequest", emptyKindSchema "Request"),
       ("EmptyResponse", emptyKindSchema "Response")]
      [] [(exampleRequestKey, 2)]).groupCounts =
      [(stripDescr (exampleRequestStripped "brightness a"), 2)] :=
  c2_dedup_key_behavior.2.1 "AReq" "BReq"
    (exampleRequestSchema "brightness a") (exampleRequestSchema "brightness b")
    (PassAcc.mk
      [("AReq", exampleRequestStripped "brightness a"),
       ("BReq", exampleRequestStripped "brightness b"),
       ("EmptyPath", emptyKindSchema "Path"),
       ("EmptyRequest", emptyKindSchema "Request"),
       ("EmptyResponse", emptyKindSchema "Response")]
      [] [(exampleRequestKey, 2)])
    (exampleRequestStripped "brightness a") (exampleRequestStripped "brightness b")
    (by decide) (by decide) (by decide) (by decide) (by decide)
    (by decide) (by decide) (by decide) (by decide) (by decide) (by decide)

/-! ## C9: idempotence -/

theorem dropDflt_idem (v : Val) (df : Option Val) :
    dropDflt v (dropDflt v df) = dropDflt v df := by
  simp only [dropDflt]
  split_ifs <;> simp_all

theorem intMinClean_idem (g : String) (mn : Option Int) :
    intMinClean g (intMinClean g mn) = intMinClean g mn := by
  simp only [intMinClean]
  split_ifs <;> simp_all

theorem intMaxClean_idem (g : String) (mx : Option Int) :
    intMaxClean g (intMaxClean g mx) = intMaxClean g mx := by
  simp only [intMaxClean]
  split_ifs <;> simp_all

/-! Unfolding equations for `cleanupSchema`, one per case of the
source's `switch` (the equation compiler flattens the nested matches, so
these spell the per-case behavior out once). -/

theorem cleanup_ref_eq (r : String) : cleanupSchema (.ref r) = .ok (.ref r) := rfl

theorem cleanup_array_none_eq (f d : Option String) (df : Option Val)
    (mn mx : Option Int) (ps : OProps) (rq : Option (List String)) (xk : Option String) :
    cleanupSchema (.node (some "array") f d df mn mx ps rq .none xk) =
      .error "TypeError: cleanup of undefined items" := rfl

theorem cleanup_array_ref_eq (f d : Option String) (df : Option Val)
    (mn mx : Option Int) (ps : OProps) (rq : Option (List String)) (xk : Option String)
    (r : String) :
    cleanupSchema (.node (some "array") f d df mn mx ps rq (.some (.ref r)) xk) =
      .ok (.node (some "array") f d df mn mx ps rq (.some (.ref r)) xk) := rfl

theorem cleanup_array_item_eq (f d : Option String) (df : Option Val)
    (mn mx : Option Int) (ps : OProps) (rq : Option (List String)) (xk : Option String)
    (b1 b2 b3 : Option String) (b4 : Option Val) (b5 b6 : Option Int)
    (b7 : OProps) (b8 : Option (List String)) (b9 : OSchema) (b10 : Option String) :
    cleanupSchema (.node (some "array") f d df mn mx ps rq
      (.some (.node b1 b2 b3 b4 b5 b6 b7 b8 b9 b10)) xk) =
    (match cleanupSchema (.node b1 b2 b3 b4 b5 b6 b7 b8 b9 b10) with
     | .error e => .error e
     | .ok item2 =>
       .ok (.node (some "array") f d df mn mx ps rq (.some item2) xk)) := rfl

theorem cleanup_object_none_eq (f d : Option String) (df : Option Val)
    (mn mx : Option Int) (rq : Option (List String)) (it : OSchema) (xk : Option String) :
    cleanupSchema (.node (some "object") f d df mn mx .none rq it xk) =
      .error "TypeError: cleanup of undefined properties" := rfl

theorem cleanup_object_some_eq (f d : Option String) (df : Option Val)
    (mn mx : Option Int) (props : Props) (rq : Option (List String)) (it : OSchema)
    (xk : Option String) :
    cleanupSchema (.node (some "object") f d df mn mx (.some props) rq it xk) =
    (match cleanupProps props with
     | .error e => .error e
     | .ok props2 =>
       .ok (.node (some "object") f d df mn mx (.some props2) rq it xk)) := rfl

theorem cleanup_string_eq (f d : Option String) (df : Option Val)
    (mn mx : Option Int) (ps : OProps) (rq : Option (List String)) (it : OSchema)
    (xk : Option String) :
    cleanupSchema (.node (some "string") f d df mn mx ps rq it xk) =
      .ok (.node (some "string") f d (dropDflt (.s "") df) mn mx ps rq it xk) := rfl

theorem cleanup_boolean_eq (f d : Option String) (df : Option Val)
    (mn mx : Option Int) (ps : OProps) (rq : Option (List String)) (it : OSchema)
    (xk : Option String) :
    cleanupSchema (.node (some "boolean") f d df mn mx ps rq it xk) =
      .ok (.node (some "boolean") f d (dropDflt (.b false) df) mn mx ps rq it xk) := rfl

theorem cleanup_integer_eq (f d : Option String) (df : Option Val)
    (mn mx : Option Int) (ps : OProps) (rq : Option (List String)) (it : OSchema)
    (xk : Option String) :
    cleanupSchema (.node (some "integer") f d df mn mx ps rq it xk) =
      .ok (.node (some "integer") (some (f.getD "int32")) d (dropDflt (.i 0) df)
        (intMinClean (f.getD "int32") mn) (intMaxClean (f.getD "int32") mx) ps rq it xk) := rfl

theorem cleanup_number_eq (f d : Option String) (df : Option Val)
    (mn mx : Option Int) (ps : OProps) (rq : Option (List String)) (it : OSchema)
    (xk : Option String) :
    cleanupSchema (.node (some "number") f d df mn mx ps rq it xk) =
      .ok (.node (some "number") f d (dropDflt (.i 0) df) mn mx ps rq it xk) := rfl

theorem cleanup_noty_eq (f d : Option String) (df : Option Val)
    (mn mx : Option Int) (ps : OProps) (rq : Option (List String)) (it : OSchema)
    (xk : Option String) :
    cleanupSchema (.node none f d df mn mx ps rq it xk) =
      .ok (.node none f d df mn mx ps rq it xk) := rfl

theorem cleanup_otherty_eq (tv : String) (f d : Option String) (df : Option Val)
    (mn mx : Option Int) (ps : OProps) (rq : Option (List String)) (it : OSchema)
    (xk : Option String) (h1 : tv ≠ "array") (h2 : tv ≠ "object")
    (h3 : tv ≠ "string") (h4 : tv ≠ "boolean") (h5 : tv ≠ "integer")
    (h6 : tv ≠ "number") :
    cleanupSchema (.node (some tv) f d df mn mx ps rq it xk) =
      .ok (.node (some tv) f d df mn mx ps rq it xk) := by
  rw [cleanupSchema.eq_def]
  split
  · simp_all
  · rename_i heq
    injection heq with he1 he2 he3 he4 he5 he6 he7 he8 he9 he10
    subst he1 he2 he3 he4 he5 he6 he7 he8 he9 he10
    split <;> simp_all

/-- The idempotence grind for one inline node, with the inductive
hypotheses for the object/array children supplied as arguments. -/
theorem cleanup_idem_node_aux (t f d : Option String) (df : Option Val)
    (mn mx : Option Int) (ps : OProps) (rq : Option (List String)) (it : OSchema)
    (xk : Option String) (sc : Schema)
    (hps : ∀ props props2, ps = .some props → cleanupProps props = .ok props2 →
       cleanupProps props2 = .ok props2)
    (hit : ∀ item item2, it = .some item → cleanupSchema item = .ok item2 →
       cleanupSchema item2 = .ok item2)
    (h : cleanupSchema (.node t f d df mn mx ps rq it xk) = .ok sc) :
    cleanupSchema sc = .ok sc := by
  rcases t with _ | tv
  · rw [cleanup_noty_eq] at h
    cases h
    exact cleanup_noty_eq f d df mn mx ps rq it xk
  · by_cases h1 : tv = "array"
    · subst h1
      cases it with
      | none =>
        rw [cleanup_array_none_eq] at h
        cases h
      | some item =>
        cases item with
        | ref r2 =>
          rw [cleanup_array_ref_eq] at h
          cases h
          exact cleanup_array_ref_eq f d df mn mx ps rq xk r2
        | node b1 b2 b3 b4 b5 b6 b7 b8 b9 b10 =>
          rw [cleanup_array_item_eq] at h
          split at h
          · cases h
          · rename_i item2 heqitem
            cases h
            have ih := hit (.node b1 b2 b3 b4 b5 b6 b7 b8 b9 b10) item2 rfl heqitem
            cases item2 with
            | ref r3 => exact cleanup_array_ref_eq f d df mn mx ps rq xk r3
            | node c1 c2 c3 c4 c5 c6 c7 c8 c9 c10 =>
              rw [cleanup_array_item_eq, ih]
    · by_cases h2 : tv = "object"
      · subst h2
        cases ps with
        | none =>
          rw [cleanup_object_none_eq] at h
          cases h
        | some props =>
          rw [cleanup_object_some_eq] at h
          split at h
          · cases h
          · rename_i props2 heqprops
            cases h
            have ih := hps props props2 rfl heqprops
            rw [cleanup_object_some_eq, ih]
      · by_cases h3 : tv = "string"
        · subst h3
          rw [cleanup_string_eq] at h
          cases h
          rw [cleanup_string_eq, dropDflt_idem]
        · by_cases h4 : tv = "boolean"
          · subst h4
            rw [cleanup_boolean_eq] at h
            cases h
            rw [cleanup_boolean_eq, dropDflt_idem]
          · by_cases h5 : tv = "integer"
            · subst h5
              rw [cleanup_integer_eq] at h
              cases h
              rw [cleanup_integer_eq]
              simp [dropDflt_idem, intMinClean_idem, intMaxClean_idem]
            · by_cases h6 : tv = "number"
              · subst h6
                rw [cleanup_number_eq] at h
                cases h
                rw [cleanup_number_eq, dropDflt_idem]
              · rw [cleanup_otherty_eq tv f d df mn mx ps rq it xk
                    h1 h2 h3 h4 h5 h6] at h
                cases h
                exact cleanup_otherty_eq tv f d df mn mx ps rq it xk
                  h1 h2 h3 h4 h5 h6

mutual

theorem cleanupSchema_idem : ∀ s sc, cleanupSchema s = .ok sc → cleanupSchema sc = .ok sc
  | .ref r, sc, h => by
    rw [cleanup_ref_eq] at h
    cases h
    exact cleanup_ref_eq r
  | .node t f d df mn mx .none rq .none xk, sc, h =>
    cleanup_idem_node_aux t f d df mn mx .none rq .none xk sc
      (fun _ _ hx _ => by cases hx) (fun _ _ hx _ => by cases hx) h
  | .node t f d df mn mx .none rq (.some itm) xk, sc, h =>
    cleanup_idem_node_aux t f d df mn mx .none rq (.some itm) xk sc
      (fun _ _ hx _ => by cases hx)
      (fun item0 item2 hx hcl => by
        injection hx with hx2
        subst hx2
        exact cleanupSchema_idem itm item2 hcl) h
  | .node t f d df mn mx (.some props) rq .none xk, sc, h =>
    cleanup_idem_node_aux t f d df mn mx (.some props) rq .none xk sc
      (fun props0 props2 hx hcl => by
        injection hx with hx2
        subst hx2
        exact cleanupProps_idem props props2 hcl)
      (fun _ _ hx _ => by cases hx) h
  | .node t f d df mn mx (.some props) rq (.some itm) xk, sc, h =>
    cleanup_idem_node_aux t f d df mn mx (.some props) rq (.some itm) xk sc
      (fun props0 props2 hx hcl => by
        injection hx with hx2
        subst hx2
        exact cleanupProps_idem props props2 hcl)
      (fun item0 item2 hx hcl => by
        injection hx with hx2
        subst hx2
        exact cleanupSchema_idem itm item2 hcl) h
termination_by s _ _ => sizeOf s
decreasing_by all_goals (simp_wf; try omega)

theorem cleanupProps_idem : ∀ l lc, cleanupProps l = .ok lc → cleanupProps lc = .ok lc
  | .nil, lc, h => by
    simp only [cleanupProps] at h
    cases h
    simp [cleanupProps]
  | .cons k (.ref r) rest, lc, h => by
    simp only [cleanupProps] at h
    split at h
    · cases h
    · rename_i rest2 heqrest
      cases h
      have ih := cleanupProps_idem rest rest2 heqrest
      simp [cleanupProps, ih]
  | .cons k (.node a1 a2 a3 a4 a5 a6 a7 a8 a9 a10) rest, lc, h => by
    simp only [cleanupProps] at h
    split at h
    · cases h
    · rename_i v2 heqv
      split at h
      · cases h
      · rename_i rest2 heqrest
        cases h
        have ihv := cleanupSchema_idem (.node a1 a2 a3 a4 a5 a6 a7 a8 a9 a10) v2 heqv
        have ihr := cleanupProps_idem rest rest2 heqrest
        cases v2 with
        | ref r2 => simp [cleanupProps, ihr]
        | node b1 b2 b3 b4 b5 b6 b7 b8 b9 b10 => simp [cleanupProps, ihv, ihr]
termination_by l _ _ => sizeOf l
decreasing_by all_goals (simp_wf; try omega)

end

/-- C9 counterexample: the deduplication pass is not idempotent. The
pass over the empty table outputs the extras table (the pass always ends
by merging the extra schemas in); re-running the pass over that
already-deduplicated table is not a no-op: it aborts fatally at
`EmptyRequest` (whose envelope fields are already stripped), and even on
the `Path`-kind entry alone — which the invariant stripper leaves
untouched — the loop records a NEW self reference-replacement, because
the extra schema matches its own dedup key. -/
theorem c9_counterexample :
    (dedupPass []).map (·.table) = .ok extraSchemas ∧
    dedupPass extraSchemas = .error "TypeError: delete of a property of undefined" ∧
    (dedupLoop ⟨[], [], []⟩ [("EmptyPath", emptyKindSchema "Path")]).map
      (·.refReplacements) =
      .ok [(schemaRefOf "EmptyPath", schemaRefOf "EmptyPath")] :=
  ⟨by decide, by decide, by decide⟩

/-- C9 (amended): the Canonicalizer alone is idempotent — re-applying
`cleanupSchema` (and its `properties` traversal) to its own output is a
no-op. The deduplication pass is NOT idempotent on its own output: the
extra schemas it merges into the table match their own dedup keys, so a
re-run records a self reference-replacement for the `Path`-kind extra
and aborts fatally at the first `Request`/`Response`-tagged schema whose
envelope fields were already stripped. -/
theorem c9_idempotence :
    (∀ s sc, cleanupSchema s = .ok sc → cleanupSchema sc = .ok sc) ∧
    (∀ l lc, cleanupProps l = .ok lc → cleanupProps lc = .ok lc) ∧
    (dedupPass []).map (·.table) = .ok extraSchemas ∧
    dedupPass extraSchemas = .error "TypeError: delete of a property of undefined" ∧
    (dedupLoop ⟨[], [], []⟩ [("EmptyPath", emptyKindSchema "Path")]).map
      (·.refReplacements) =
      .ok [(schemaRefOf "EmptyPath", schemaRefOf "EmptyPath")] :=
  ⟨cleanupSchema_idem, cleanupProps_idem, by decide, by decide, by decide⟩

/-- Witness for C9 (amended): a `uint32` integer schema with a zero
default and the full unsigned range canonicalizes to the bare
integer/uint32 node, and canonicalizing that result again changes
nothing. -/
theorem c9_witness :
    cleanupSchema (.node (some "integer") (some "uint32") none (some (.i 0))
      (some 0) (some 4294967295) .none none .none none) = .ok (intSchema "uint32") ∧
    cleanupSchema (intSchema "uint32") = .ok (intSchema "uint32") :=
  ⟨by decide,
   c9_idempotence.1
     (.node (some "integer") (some "uint32") none (some (.i 0))
       (some 0) (some 4294967295) .none none .none none)
     (intSchema "uint32") (by decide)⟩

/-! ## C4, C6, C10: the per-operation classifier -/

/-- Characterization of a successful `getContent`: the content map holds
exactly the requested content type, whose schema resolves to an
object-typed schema. -/
theorem getContent_ok_elim (env : Env) (owner : ContentOwner) (ct : String)
    (sch : Schema) (m : MediaObject)
    (h : getContent env owner ct = .ok (sch, m)) :
    owner.content.getD [] = [(ct, m)] ∧ sch.tyOf = some "object" ∧
    ∃ msch, m.schema = some msch ∧ resolveSchemaRef env msch = .ok sch := by
  simp only [getContent] at h
  split at h
  · rename_i k media heq
    split at h
    · rename_i hkeq
      subst hkeq
      split at h
      · cases h
      · rename_i msch hmsch
        split at h
        · cases h
        · rename_i rsch hres
          split at h
          · rename_i hty
            injection h with h2
            injection h2 with h3 h4
            subst h3
            subst h4
            exact ⟨heq, hty, msch, hmsch, hres⟩
          · cases h
    · cases h
  · cases h

/-- Characterization of a successful request classification. -/
theorem classifyRequest_ok_elim (env : Env) (method path : String)
    (qps : List Param) (body : Option ContentOwner) (sch : Schema) (kind : String)
    (h : classifyRequest env method path qps body = .ok (sch, kind)) :
    (method = "get" → qps ≠ [] ∧ body = none ∧ kind = "Query" ∧
       setXKind (buildQuerySchema qps) "Request" = .ok sch) ∧
    (method ≠ "get" → qps = [] ∧ kind = "Form" ∧
       ∃ b bsch mo, body = some b ∧
         getContent env b "application/x-www-form-urlencoded" = .ok (bsch, mo) ∧
         setXKind bsch "Request" = .ok sch) := by
  by_cases hm : method = "get"
  · subst hm
    by_cases hq : qps = []
    · simp [classifyRequest, hq] at h
    · by_cases hb : body = none
      · rcases htag : setXKind (buildQuerySchema qps) "Request" with _ | tagged
        · simp [classifyRequest, hq, hb, htag] at h
        · simp [classifyRequest, hq, hb, htag] at h
          obtain ⟨h1, h2⟩ := h
          exact ⟨fun _ => ⟨hq, hb, h2.symm, congrArg Except.ok h1⟩,
                 fun hne => absurd rfl hne⟩
      · simp [classifyRequest, hq, hb] at h
  · by_cases hq : qps = []
    · rcases body with _ | b
      · simp [classifyRequest, hm, hq] at h
      · rcases hbp : getContent env b "application/x-www-form-urlencoded" with _ | bp
        · simp [classifyRequest, hm, hq, hbp] at h
        · rcases bp with ⟨bsch, mo⟩
          rcases htag : setXKind bsch "Request" with _ | tagged
          · simp [classifyRequest, hm, hq, hbp, htag] at h
          · simp [classifyRequest, hm, hq, hbp, htag] at h
            obtain ⟨h1, h2⟩ := h
            exact ⟨fun hg => absurd hg hm,
                    fun _ => ⟨hq, h2.symm, b, bsch, mo, rfl, hbp,
                              htag.trans (congrArg Except.ok h1)⟩⟩
    · simp [classifyRequest, hm, hq] at h

/-- Characterization of a successful response classification. -/
theorem classifyResponses_ok_elim (env : Env) (method path : String)
    (op : Operation) (rsch : Schema)
    (h : classifyResponses env method path op = .ok rsch) :
    ∃ sro, lookupStr op.responses "200" = some sro ∧
      errShapeOk (op.responses.filter (fun kv => kv.1 ≠ "200")) = true ∧
      ∃ co csch mo, resolveOwner env sro = .ok co ∧
        getContent env co "application/json" = .ok (csch, mo) ∧
        setXKind csch "Response" = .ok rsch := by
  rcases hsro : lookupStr op.responses "200" with _ | sro
  · simp [classifyResponses, hsro] at h
  · rcases hco : resolveOwner env sro with _ | co
    · simp only [classifyResponses, hsro, hco] at h
      split at h <;> simp at h
    · rcases hcp : getContent env co "application/json" with _ | cp
      · simp only [classifyResponses, hsro, hco, hcp] at h
        split at h <;> simp at h
      · rcases cp with ⟨csch, mo⟩
        simp only [classifyResponses, hsro, hco, hcp] at h
        split at h
        · simp at h
        · rename_i hcond
          exact ⟨sro, rfl, not_not.mp hcond, co, csch, mo, hco, hcp, h⟩

/-- Characterization of a successful per-operation classification. -/
theorem classifyOp_ok_elim (env : Env) (method path : String) (op : Operation)
    (r : ClassifyResult) (h : classifyOp env method path op = .ok r) :
    op.tags.map List.length = some 1 ∧
    pathMatch path = some (r.groupPath, r.subPath) ∧
    ∃ ps, resolveParams env (op.parameters.getD []) = .ok ps ∧
      ps.all (fun q => q.locus == "path" || q.locus == "query") = true ∧
      ps.filter (fun q => q.locus == "path") ≠ [] ∧
      pathShapeOk env (ps.filter (fun q => q.locus == "path"))
        (r.groupPath == "{device_type}") = true ∧
      classifyRequest env method path (ps.filter (fun q => q.locus == "query"))
        (resolveBody env op.requestBody) = .ok (r.requestSchema, r.requestKind) ∧
      classifyResponses env method path op = .ok r.responseSchema := by
  simp only [classifyOp] at h
  split at h
  · cases h
  · rename_i htags
    split at h
    · cases h
    · rename_i gp sp hmatch
      split at h
      · cases h
      · rename_i ps hps
        split at h
        · cases h
        · rename_i hloci
          split at h
          · cases h
          · rename_i hpps
            split at h
            · cases h
            · rename_i hshape
              split at h
              · cases h
              · rename_i reqSchema reqKind hreq
                split at h
                · cases h
                · rename_i respSchema hresp
                  cases h
                  exact ⟨not_not.mp htags, hmatch, ps, hps,
                         not_not.mp hloci, hpps, not_not.mp hshape,
                         hreq, hresp⟩

/-- A successful path match yields the `{device_type}` literal or a
`\w+` word as the group, and a `\w+` word as the sub-path. -/
theorem pathMatch_some_elim (p g sp : String) (h : pathMatch p = some (g, sp)) :
    (g = "{device_type}" ∨ wordOk g = true) ∧ wordOk sp = true := by
  simp only [pathMatch] at h
  split at h
  · split at h
    · rename_i hcond
      injection h with h2
      injection h2 with h3 h4
      subst h3
      subst h4
      exact ⟨hcond.2.1, hcond.2.2⟩
    · cases h
  · cases h

/-- C4: the classifier fails unless the 200 response is present, the
remaining responses are — after stripping descriptions — exactly the 400
and 500 entries each with a single `text/plain` string body, and the 200
response's content is a single `application/json` entry whose schema is
object-typed. -/
theorem c4_response_validation :
    ∀ env method path op r, classifyOp env method path op = .ok r →
      ∃ sro, lookupStr op.responses "200" = some sro ∧
        errShapeOk (op.responses.filter (fun kv => kv.1 ≠ "200")) = true ∧
        ∃ co sch mo, resolveOwner env sro = .ok co ∧
          co.content.getD [] = [("application/json", mo)] ∧
          sch.tyOf = some "object" ∧
          getContent env co "application/json" = .ok (sch, mo) := by
  intro env method path op r h
  obtain ⟨-, -, ps, -, -, -, -, -, hresp⟩ := classifyOp_ok_elim env method path op r h
  obtain ⟨sro, hsro, herr, co, csch, mo, hco, hcp, -⟩ :=
    classifyResponses_ok_elim env method path op r.responseSchema hresp
  obtain ⟨hkeys, hty, -⟩ := getContent_ok_elim env co "application/json" csch mo hcp
  exact ⟨sro, hsro, herr, co, csch, mo, hco, hkeys, hty, hcp⟩

/-- C6: for a successfully classified operation, the query-style method
(`get`) requires query parameters and no request body — the query
accumulator is tagged `Request` with request kind `Query` — and any
other method requires no query parameters and a request body with a
single `application/x-www-form-urlencoded` object-typed content, whose
schema is tagged `Request` with request kind `Form`; so any deviation is
a fatal error. -/
theorem c6_request_classification :
    ∀ env method path op r, classifyOp env method path op = .ok r →
      ∃ ps, resolveParams env (op.parameters.getD []) = .ok ps ∧
        ((method = "get" →
           ps.filter (fun q => q.locus == "query") ≠ [] ∧
           resolveBody env op.requestBody = none ∧
           r.requestKind = "Query" ∧
           r.requestSchema.xKindOf = some "Request") ∧
         (method ≠ "get" →
           ps.filter (fun q => q.locus == "query") = [] ∧
           r.requestKind = "Form" ∧
           r.requestSchema.xKindOf = some "Request" ∧
           ∃ b bsch mo, resolveBody env op.requestBody = some b ∧
             b.content.getD [] = [("application/x-www-form-urlencoded", mo)] ∧
             bsch.tyOf = some "object" ∧
             getContent env b "application/x-www-form-urlencoded" = .ok (bsch, mo))) := by
  intro env method path op r h
  obtain ⟨-, -, ps, hps, -, -, -, hreq, -⟩ := classifyOp_ok_elim env method path op r h
  obtain ⟨hget, hother⟩ := classifyRequest_ok_elim env method path
    (ps.filter (fun q => q.locus == "query")) (resolveBody env op.requestBody)
    r.requestSchema r.requestKind hreq
  refine ⟨ps, hps, ?_, ?_⟩
  · intro hm
    obtain ⟨hq, hb, hk, htag⟩ := hget hm
    exact ⟨hq, hb, hk, setXKind_ok_kind _ _ _ htag⟩
  · intro hm
    obtain ⟨hq, hk, b, bsch, mo, hb, hbc, htag⟩ := hother hm
    obtain ⟨hkeys, hty, -⟩ :=
      getContent_ok_elim env b "application/x-www-form-urlencoded" bsch mo hbc
    exact ⟨hq, hk, setXKind_ok_kind _ _ _ htag, b, bsch, mo, hb, hkeys, hty, hbc⟩

/-- C10: classification fails unless the operation declares exactly one
tag and its path matches the fixed three-segment form
`/<group>/{device_number}/<subPath>` with `<group>` a word or the
`{device_type}` literal and `<subPath>` a word; the path parameters must
then be exactly a required integer `device_number` plus — exactly when
the group is `{device_type}` — a required string `device_type`.
Concrete shape checks of the path matcher are included. -/
theorem c10_path_shape :
    (∀ env method path op r, classifyOp env method path op = .ok r →
       op.tags.map List.length = some 1 ∧
       ∃ g sp, pathMatch path = some (g, sp) ∧
         (g = "{device_type}" ∨ wordOk g = true) ∧ wordOk sp = true ∧
         ∃ ps, resolveParams env (op.parameters.getD []) = .ok ps ∧
           ps.filter (fun q => q.locus == "path") ≠ [] ∧
           mapEqUnordered
             (fromEntriesLater ((ps.filter (fun q => q.locus == "path")).map
               (fun q => (q.name, (paramTypeOf env q, q.required)))))
             (expectedPathParams (g == "{device_type}")) = true) ∧
    pathMatch "/telescope/{device_number}/connected" = some ("telescope", "connected") ∧
    pathMatch "/{device_type}/{device_number}/connected" =
      some ("{device_type}", "connected") ∧
    pathMatch "/telescope/connected" = none ∧
    pathMatch "/telescope/{device_number}/sub/extra" = none ∧
    expectedPathParams false = [("device_number", (some "integer", some true))] ∧
    expectedPathParams true =
      [("device_type", (some "string", some true)),
       ("device_number", (some "integer", some true))] := by
  refine ⟨?_, by decide, by decide, by decide, by decide, by decide, by decide⟩
  intro env method path op r h
  obtain ⟨htags, hmatch, ps, hps, -, hpps, hshape, -, -⟩ :=
    classifyOp_ok_elim env method path op r h
  obtain ⟨hg, hsp⟩ := pathMatch_some_elim path r.groupPath r.subPath hmatch
  exact ⟨htags, r.groupPath, r.subPath, hmatch, hg, hsp, ps, hps, hpps,
         by simpa [pathShapeOk] using hshape⟩

/-- Witness for C4: the example non-`get` operation classifies
successfully, so its responses satisfy the validated shape. -/
theorem c4_witness :
    ∃ sro, lookupStr examplePutOperation.responses "200" = some sro ∧
      errShapeOk (examplePutOperation.responses.filter (fun kv => kv.1 ≠ "200")) = true ∧
      ∃ co sch mo, resolveOwner emptyEnv sro = .ok co ∧
        co.content.getD [] = [("application/json", mo)] ∧
        sch.tyOf = some "object" ∧
        getContent emptyEnv co "application/json" = .ok (sch, mo) :=
  c4_response_validation emptyEnv "put" "/camera/{device_number}/startexposure"
    examplePutOperation
    ⟨"camera", "startexposure", emptyKindSchema "Request", "Form",
     emptyKindSchema "Response"⟩
    (by decide)

/-- Witness for C6: the example `get` operation classifies with request
kind `Query` and a `Request`-tagged accumulator. -/
theorem c6_witness :
    ∃ ps, resolveParams emptyEnv (exampleGetOperation.parameters.getD []) = .ok ps ∧
      (("get" = "get" →
         ps.filter (fun q => q.locus == "query") ≠ [] ∧
         resolveBody emptyEnv exampleGetOperation.requestBody = none ∧
         ("Query" : String) = "Query" ∧
         exampleQueryRequestSchema.xKindOf = some "Request") ∧
       (("get" : String) ≠ "get" →
         ps.filter (fun q => q.locus == "query") = [] ∧
         ("Query" : String) = "Form" ∧
         exampleQueryRequestSchema.xKindOf = some "Request" ∧
         ∃ b bsch mo, resolveBody emptyEnv exampleGetOperation.requestBody = some b ∧
           b.content.getD [] = [("application/x-www-form-urlencoded", mo)] ∧
           bsch.tyOf = some "object" ∧
           getContent emptyEnv b "application/x-www-form-urlencoded" = .ok (bsch, mo))) :=
  c6_request_classification emptyEnv "get" "/camera/{device_number}/imageready"
    exampleGetOperation
    ⟨"camera", "imageready", exampleQueryRequestSchema, "Query",
     emptyKindSchema "Response"⟩
    (by decide)

/-- Witness for C10: the example non-`get` operation satisfies the
tag-count, path-shape and path-parameter requirements. -/
theorem c10_witness :
    examplePutOperation.tags.map List.length = some 1 ∧
    ∃ g sp, pathMatch "/camera/{device_number}/startexposure" = some (g, sp) ∧
      (g = "{device_type}" ∨ wordOk g = true) ∧ wordOk sp = true ∧
      ∃ ps, resolveParams emptyEnv (examplePutOperation.parameters.getD []) = .ok ps ∧
        ps.filter (fun q => q.locus == "path") ≠ [] ∧
        mapEqUnordered
          (fromEntriesLater ((ps.filter (fun q => q.locus == "path")).map
            (fun q => (q.name, (paramTypeOf emptyEnv q, q.required)))))
          (expectedPathParams (g == "{device_type}")) = true :=
  c10_path_shape.1 emptyEnv "put" "/camera/{device_number}/startexposure"
    examplePutOperation
    ⟨"camera", "startexposure", emptyKindSchema "Request", "Form",
     emptyKindSchema "Response"⟩
    (by decide)

end AlpacaGen
